import Mathlib

/-!
# deliveryPlannerGolang: routes, packages and drivers over a document store

A shallow embedding of the domain models (`internal/domain/models`), the persistence
gateways (`internal/domain/repositories`), the services
(`internal/application/services`) and the RPC adapter operations that write a route
(`internal/interfaces/grpc/route_service.go`).

Conventions of the embedding.

* A MongoDB collection is the list of its documents in natural order.  `FindOne`,
  `UpdateOne`, `ReplaceOne` and `DeleteOne` act on the first document the filter
  matches; a filter that matches nothing makes `FindOne` fail with
  `mongo.ErrNoDocuments` and makes the three writes succeed without writing.
  Connection-level failures of the store are outside the model.
* A Go method with a pointer receiver returns the receiver after the call together
  with its result; a service operation returns the store after the call together with
  its error (`none` is Go's `nil` error).
* `time.Now()` is read from a clock `clk : Nat → Time`; `clk k` is the value returned
  by the k-th call made during the operation.
* `float64` is modelled by its finite values with round-to-nearest-even arithmetic.
-/

namespace DeliveryPlanner

/-! ## Identifiers, time, errors -/

/-- The 12-byte `primitive.ObjectID`, as a number. -/
abbrev ObjectID := Nat

/-- A reading of `time.Time`. -/
abbrev Time := Nat

/-- The clock of one operation: `clk k` is what the k-th `time.Now()` returns. -/
abbrev Clock := Nat → Time

/-- The method `ObjectID.Hex`: 24 lower-case hexadecimal digits. -/
def ObjectID.Hex (id : ObjectID) : String :=
  let ds := Nat.toDigits 16 id
  String.mk (List.replicate (24 - ds.length) '0' ++ ds)

/-- Go `error` values produced by the code: the driver's `mongo.ErrNoDocuments`, the
sentinel `models.ErrRouteHasPendingPackages`, and errors made on the spot by
`fmt.Errorf` or `errors.New` from a message. -/
inductive Err where
  | ErrNoDocuments
  | ErrRouteHasPendingPackages
  | errorf (msg : String)
deriving DecidableEq, Repr

/-- The method `Error()` of an error value. -/
def Err.Error : Err → String
  | .ErrNoDocuments => "mongo: no documents in result"
  | .ErrRouteHasPendingPackages => "cannot complete route: there are pending packages"
  | .errorf msg => msg

/-! ## float64

Finite IEEE-754 binary64 values.  Infinities and NaN are not represented: an operation
whose exact result leaves the finite range, and a division by zero, are outside the
model. -/

/-- A finite binary64 value `(-1)^neg * mant * 2^(exp - 52)`.  Normal numbers have
`2^52 ≤ mant < 2^53` and `-1022 ≤ exp ≤ 1023`; zero and the subnormal numbers have
`exp = -1022` and `mant < 2^52`. -/
structure Float64 where
  neg : Bool
  mant : Nat
  exp : Int
deriving DecidableEq, Repr

/-- Auxiliary for `ilog2`, by halving at most `fuel` times. -/
def ilog2Aux : Nat → Nat → Nat
  | 0, _ => 0
  | fuel + 1, n => if n < 2 then 0 else ilog2Aux fuel (n / 2) + 1

/-- Position of the leading bit of `n`: the `l` with `2^l ≤ n < 2^(l+1)` for `n > 0`. -/
def ilog2 (n : Nat) : Nat := ilog2Aux n n

/-- The integer `⌊log2 (a / b)⌋` for positive `a` and `b`. -/
def floorLog2Quot (a b : Nat) : Int :=
  if b * 2 ^ ilog2 a ≤ a * 2 ^ ilog2 b then (ilog2 a : Int) - (ilog2 b : Int)
  else (ilog2 a : Int) - (ilog2 b : Int) - 1

/-- The quotient `n / d` rounded to the nearest integer, ties to the even one. -/
def roundHalfEven (n d : Nat) : Nat :=
  if 2 * (n % d) < d then n / d
  else if d < 2 * (n % d) then n / d + 1
  else if (n / d) % 2 = 0 then n / d else n / d + 1

/-- Rounding of the positive quotient `a / b` (`b > 0`) to a binary format with `p`
fraction bits and least exponent `emin`, to nearest with ties to even: the
significand `m` and exponent `e` of the result `m * 2^(e - p)`. -/
def roundSignificand (p : Nat) (emin : Int) (a b : Nat) : Nat × Int :=
  if a = 0 then (0, emin)
  else
    let e := max (floorLog2Quot a b) emin
    let m := roundHalfEven (a * 2 ^ ((p : Int) - e).toNat) (b * 2 ^ (e - (p : Int)).toNat)
    if m = 2 ^ (p + 1) then (2 ^ p, e + 1) else (m, e)

/-- The binary64 value nearest to `(-1)^neg * a / b` (ties to even), for `b > 0`. -/
def Float64.round (neg : Bool) (a b : Nat) : Float64 :=
  ⟨neg, (roundSignificand 52 (-1022) a b).1, (roundSignificand 52 (-1022) a b).2⟩

/-- The conversion `float64(n)` of a Go `int`. -/
def Float64.ofInt (n : Int) : Float64 :=
  Float64.round (decide (n < 0)) n.natAbs 1

/-- The product `x * y` in `float64`. -/
def Float64.mul (x y : Float64) : Float64 :=
  Float64.round (xor x.neg y.neg)
    (x.mant * y.mant * 2 ^ (x.exp + y.exp - 104).toNat) (2 ^ (104 - x.exp - y.exp).toNat)

/-- The quotient `x / y` in `float64`, for `y` nonzero. -/
def Float64.div (x y : Float64) : Float64 :=
  Float64.round (xor x.neg y.neg)
    (x.mant * 2 ^ (x.exp - y.exp).toNat) (y.mant * 2 ^ (y.exp - x.exp).toNat)

/-- The conversion `int(x)` of a `float64`: the fraction is discarded. -/
def Float64.toInt (x : Float64) : Int :=
  let t : Nat := x.mant * 2 ^ (x.exp - 52).toNat / 2 ^ (52 - x.exp).toNat
  if x.neg then -(t : Int) else (t : Int)

/-- A finite binary32 value `(-1)^neg * mant * 2^(exp - 23)`, with `-126 ≤ exp`. -/
structure Float32 where
  neg : Bool
  mant : Nat
  exp : Int
deriving DecidableEq, Repr

/-- The conversion `float32(x)` of a `float64`. -/
def Float64.toFloat32 (x : Float64) : Float32 :=
  ⟨x.neg,
   (roundSignificand 23 (-126) (x.mant * 2 ^ (x.exp - 52).toNat) (2 ^ (52 - x.exp).toNat)).1,
   (roundSignificand 23 (-126) (x.mant * 2 ^ (x.exp - 52).toNat) (2 ^ (52 - x.exp).toNat)).2⟩

/-- The conversion `int32(n)` of a Go `int`: the low 32 bits, as a signed number. -/
def toInt32 (n : Int) : Int := (n + 2 ^ 31) % 2 ^ 32 - 2 ^ 31

/-- The rational number a `Float64` stands for. -/
def Float64.toRat (x : Float64) : ℚ :=
  (if x.neg then -1 else 1) * (x.mant : ℚ) * (2 : ℚ) ^ (x.exp - 52)

/-! ## Domain models (`internal/domain/models`) -/

/-- The string type `models.RouteStatus`. -/
abbrev RouteStatus := String

def RouteStatusPending : RouteStatus := "pending"
def RouteStatusActive : RouteStatus := "active"
def RouteStatusCompleted : RouteStatus := "completed"
def RouteStatusCancelled : RouteStatus := "cancelled"

/-- The string type `models.PackageStatus`. -/
abbrev PackageStatus := String

def PackageStatusPending : PackageStatus := "pending"
def PackageStatusAssigned : PackageStatus := "assigned"
def PackageStatusDelivered : PackageStatus := "delivered"
def PackageStatusCancelled : PackageStatus := "cancelled"

/-- The string type `models.VehicleType`. -/
abbrev VehicleType := String

/-- The struct `models.Driver`. -/
structure Driver where
  ID : ObjectID
  Name : String
  VehicleType : VehicleType
  Active : Bool
  CreatedAt : Time
  UpdatedAt : Time
deriving DecidableEq, Repr

/-- The struct `models.Package`; `DeliveryTimestamp` is a `*time.Time`. -/
structure Package where
  ID : ObjectID
  TrackingNumber : String
  CustomerName : String
  CustomerAddress : String
  CustomerPhone : String
  WeightKg : Float64
  VolumeM3 : Float64
  Delivered : Bool
  DeliveryTimestamp : Option Time
  CreatedAt : Time
  UpdatedAt : Time
deriving DecidableEq, Repr

/-- The struct `models.PackageRoute`: one assignment of a package to a route. -/
structure PackageRoute where
  PackageID : ObjectID
  OrderInRoute : Int
  Delivered : Bool
  DeliveryTimestamp : Option Time
deriving DecidableEq, Repr

/-- The struct `models.Route`. -/
structure Route where
  ID : ObjectID
  DriverID : ObjectID
  Date : Time
  Packages : List PackageRoute
  EstimatedDistanceKm : Float64
  EstimatedTimeMin : Int
  Status : RouteStatus
  CreatedAt : Time
  UpdatedAt : Time
deriving DecidableEq, Repr

/-- The constructor `models.NewRoute`; `now` is its reading of `time.Now()`. -/
def NewRoute (now : Time) (driverID : ObjectID) (date : Time) : Route :=
  { ID := 0
    DriverID := driverID
    Date := date
    Packages := []
    EstimatedDistanceKm := Float64.ofInt 0
    EstimatedTimeMin := 0
    Status := RouteStatusPending
    CreatedAt := now
    UpdatedAt := now }

/-- The method `Route.AddPackage`. -/
def Route.AddPackage (r : Route) (now : Time) (packageID : ObjectID) : Route :=
  { r with
    Packages := r.Packages ++
      [{ PackageID := packageID
         OrderInRoute := (r.Packages.length : Int) + 1
         Delivered := false
         DeliveryTimestamp := none }]
    UpdatedAt := now }

/-- The loop of `Route.UpdatePackageStatus` over the assignments: the list after the
loop and whether an assignment was found. -/
def updateFirstAssignment (now : Time) (packageID : ObjectID) (delivered : Bool) :
    List PackageRoute → List PackageRoute × Bool
  | [] => ([], false)
  | p :: ps =>
    if p.PackageID = packageID then
      ({ p with Delivered := delivered
                DeliveryTimestamp := if delivered then some now else none } :: ps, true)
    else
      let rest := updateFirstAssignment now packageID delivered ps
      (p :: rest.1, rest.2)

/-- The method `Route.UpdatePackageStatus`; both calls of `time.Now()` in the found
branch are `clk 0` and `clk 1` (when `delivered` is false only one call is made). -/
def Route.UpdatePackageStatus (r : Route) (clk : Clock) (packageID : ObjectID)
    (delivered : Bool) : Route × Bool :=
  let res := updateFirstAssignment (clk 0) packageID delivered r.Packages
  if res.2 then
    ({ r with Packages := res.1, UpdatedAt := if delivered then clk 1 else clk 0 }, true)
  else (r, false)

/-- The method `Route.UpdateStatus`: the receiver after the call and the error. -/
def Route.UpdateStatus (r : Route) (now : Time) (status : RouteStatus) :
    Route × Option Err :=
  if status = RouteStatusCompleted ∧ r.Packages.any (fun p => !p.Delivered) then
    (r, some Err.ErrRouteHasPendingPackages)
  else
    ({ r with Status := status, UpdatedAt := now }, none)

/-- The method `Route.Validate`. -/
def Route.Validate (_r : Route) : Option Err := none

/-- The method `Package.MarkAsDelivered`; `now` is its reading of `time.Now()`. -/
def Package.MarkAsDelivered (p : Package) (now : Time) : Package :=
  { p with Delivered := true, DeliveryTimestamp := some now, UpdatedAt := now }

/-! ## The document store -/

/-- A stored package document: the marshalled `models.Package` and the field `status`,
which only `PackageRepository.UpdateStatus` sets and which the struct does not
declare (decoding drops it, replacing the document from a struct removes it). -/
structure PackageDoc where
  pkg : Package
  status : Option PackageStatus
deriving DecidableEq, Repr

/-- The three collections `drivers`, `packages` and `routes`.  A stored route document
is a marshalled `models.Route`: every write to `routes` is made from that struct or
sets one of its fields. -/
structure Store where
  drivers : List Driver
  packages : List PackageDoc
  routes : List Route
deriving DecidableEq, Repr

/-- The driver call `UpdateOne` (and `ReplaceOne`): apply `f` to the first document
matching `p`; nothing is written when none matches. -/
def updateOne {α : Type} (p : α → Bool) (f : α → α) : List α → List α
  | [] => []
  | x :: xs => if p x then f x :: xs else x :: updateOne p f xs

/-- A value of a BSON field, as far as route assignments use them. -/
inductive Bson where
  | objectID (id : ObjectID)
  | int (n : Int)
  | bool (b : Bool)
  | dateTime (t : Time)
deriving DecidableEq, Repr

/-- The BSON document of an assignment, from the struct tags of `models.PackageRoute`:
`package_id`, `order_in_route`, `delivered` and `delivery_timestamp,omitempty`. -/
def PackageRoute.bson (p : PackageRoute) : List (String × Bson) :=
  [("package_id", Bson.objectID p.PackageID),
   ("order_in_route", Bson.int p.OrderInRoute),
   ("delivered", Bson.bool p.Delivered)] ++
  (match p.DeliveryTimestamp with
   | some t => [("delivery_timestamp", Bson.dateTime t)]
   | none => [])

/-- Whether an array element satisfies the query condition `key: value`. -/
def PackageRoute.matchesField (key : String) (value : Bson) (p : PackageRoute) : Bool :=
  p.bson.lookup key == some value

/-! ## Persistence gateways (`internal/domain/repositories`) -/

/-- The method `RouteRepository.GetByID`: `FindOne` on `_id`; a `nil` route is never
returned without an error. -/
def RouteRepository.GetByID (routes : List Route) (id : ObjectID) :
    Except Err (Option Route) :=
  match routes.find? (fun r => r.ID == id) with
  | none => .error Err.ErrNoDocuments
  | some r => .ok (some r)

/-- The method `RouteRepository.List` (its name here avoids the list type). -/
def RouteRepository.ListAll (routes : List Route) : List Route := routes

/-- The method `RouteRepository.Update`: stamps `UpdatedAt` and replaces the document
with the same `_id`. -/
def RouteRepository.Update (now : Time) (routes : List Route) (route : Route) :
    List Route :=
  updateOne (fun r => r.ID == route.ID) (fun _ => { route with UpdatedAt := now }) routes

/-- The method `RouteRepository.Delete`. -/
def RouteRepository.Delete (routes : List Route) (id : ObjectID) : List Route :=
  routes.eraseP (fun r => r.ID == id)

/-- The method `RouteRepository.UpdateStatus`: sets `status` on the route with that
`_id`. -/
def RouteRepository.UpdateStatus (routes : List Route) (id : ObjectID)
    (status : RouteStatus) : List Route :=
  updateOne (fun r => r.ID == id) (fun r => { r with Status := status }) routes

/-- The method `RouteRepository.UpdatePackageStatus`: `UpdateOne` with the filter
`_id: routeID, packages._id: packageID`, setting `packages.$.delivered` and
`packages.$.delivery_timestamp` on the first array element that satisfies the
condition on `packages`. -/
def RouteRepository.UpdatePackageStatus (now : Time) (routes : List Route)
    (routeID packageID : ObjectID) (delivered : Bool) : List Route :=
  updateOne
    (fun r => r.ID == routeID &&
      r.Packages.any (PackageRoute.matchesField "_id" (Bson.objectID packageID)))
    (fun r => { r with
      Packages := updateOne (PackageRoute.matchesField "_id" (Bson.objectID packageID))
        (fun p => { p with Delivered := delivered, DeliveryTimestamp := some now })
        r.Packages })
    routes

/-- The method `PackageRepository.GetByID`: `FindOne` on `_id`, decoded into the
struct. -/
def PackageRepository.GetByID (packages : List PackageDoc) (id : ObjectID) :
    Except Err (Option Package) :=
  match packages.find? (fun d => d.pkg.ID == id) with
  | none => .error Err.ErrNoDocuments
  | some d => .ok (some d.pkg)

/-- The method `PackageRepository.Update`: stamps `UpdatedAt` and replaces the
document with the same `_id` by the marshalled struct. -/
def PackageRepository.Update (now : Time) (packages : List PackageDoc) (pkg : Package) :
    List PackageDoc :=
  updateOne (fun d => d.pkg.ID == pkg.ID)
    (fun _ => { pkg := { pkg with UpdatedAt := now }, status := none }) packages

/-- The method `PackageRepository.Delete`. -/
def PackageRepository.Delete (packages : List PackageDoc) (id : ObjectID) :
    List PackageDoc :=
  packages.eraseP (fun d => d.pkg.ID == id)

/-- The method `PackageRepository.UpdateStatus`: sets the field `status` of the
document with that `_id`. -/
def PackageRepository.UpdateStatus (packages : List PackageDoc) (id : ObjectID)
    (status : PackageStatus) : List PackageDoc :=
  updateOne (fun d => d.pkg.ID == id) (fun d => { d with status := some status }) packages

/-- The method `DriverRepository.GetByID`. -/
def DriverRepository.GetByID (drivers : List Driver) (id : ObjectID) :
    Except Err (Option Driver) :=
  match drivers.find? (fun d => d.ID == id) with
  | none => .error Err.ErrNoDocuments
  | some d => .ok (some d)

/-- The method `DriverRepository.Update`. -/
def DriverRepository.Update (now : Time) (drivers : List Driver) (driver : Driver) :
    List Driver :=
  updateOne (fun d => d.ID == driver.ID) (fun _ => { driver with UpdatedAt := now }) drivers

/-- The method `DriverRepository.Delete`. -/
def DriverRepository.Delete (drivers : List Driver) (id : ObjectID) : List Driver :=
  drivers.eraseP (fun d => d.ID == id)

/-! ## RouteService (`internal/application/services/route_service.go`) -/

/-- The first loop of `AddPackagesToRoute`: fetch every package in input order and
stop at the first id that is absent or already delivered. -/
def RouteService.getPackages (packages : List PackageDoc) :
    List ObjectID → Except Err (List Package)
  | [] => .ok []
  | id :: ids =>
    match PackageRepository.GetByID packages id with
    | .error e => .error e
    | .ok none => .error (Err.errorf ("package " ++ ObjectID.Hex id ++ " not found"))
    | .ok (some pkg) =>
      if pkg.Delivered then
        .error (Err.errorf ("package " ++ ObjectID.Hex id ++ " is already delivered"))
      else
        match RouteService.getPackages packages ids with
        | .error e => .error e
        | .ok pkgs => .ok (pkg :: pkgs)

/-- The second loop of `AddPackagesToRoute`: `route.AddPackage(pkg.ID)` for every
fetched package; the call for the k-th one reads `clk k`. -/
def RouteService.addPackages (clk : Clock) : Nat → List Package → Route → Route
  | _, [], route => route
  | k, pkg :: pkgs, route =>
    RouteService.addPackages clk (k + 1) pkgs (route.AddPackage (clk k) pkg.ID)

/-- The helper `calculateEstimatedDistance`: `float64(len(packages)) * 5.0`. -/
def calculateEstimatedDistance (packages : List Package) : Float64 :=
  Float64.mul (Float64.ofInt packages.length) (Float64.ofInt 5)

/-- The helper `calculateEstimatedTime`: `int(distanceKm / 50.0 * 60.0)`. -/
def calculateEstimatedTime (distanceKm : Float64) : Int :=
  Float64.toInt (Float64.mul (Float64.div distanceKm (Float64.ofInt 50)) (Float64.ofInt 60))

/-- The method `RouteService.GetRoute`. -/
def RouteService.GetRoute (s : Store) (id : ObjectID) : Except Err (Option Route) :=
  RouteRepository.GetByID s.routes id

/-- The method `RouteService.AddPackagesToRoute`. -/
def RouteService.AddPackagesToRoute (clk : Clock) (s : Store) (routeID : ObjectID)
    (packageIDs : List ObjectID) : Store × Option Err :=
  match RouteRepository.GetByID s.routes routeID with
  | .error e => (s, some e)
  | .ok none => (s, some (Err.errorf "route not found"))
  | .ok (some route) =>
    if route.Status ≠ RouteStatusPending then
      (s, some (Err.errorf "can only add packages to pending routes"))
    else
      match RouteService.getPackages s.packages packageIDs with
      | .error e => (s, some e)
      | .ok packages =>
        let route1 := RouteService.addPackages clk 0 packages route
        let route2 := { route1 with EstimatedDistanceKm := calculateEstimatedDistance packages }
        let route3 := { route2 with
          EstimatedTimeMin := calculateEstimatedTime route2.EstimatedDistanceKm }
        ({ s with routes := RouteRepository.Update (clk packages.length) s.routes route3 },
         none)

/-- The cascade loops of `UpdateRouteStatus`: `packageRepo.UpdateStatus` for every
assignment of the route, in order. -/
def RouteService.cascade (status : PackageStatus) :
    List PackageRoute → List PackageDoc → List PackageDoc
  | [], packages => packages
  | p :: ps, packages =>
    RouteService.cascade status ps (PackageRepository.UpdateStatus packages p.PackageID status)

/-- The method `RouteService.UpdateRouteStatus`. -/
def RouteService.UpdateRouteStatus (clk : Clock) (s : Store) (id : ObjectID)
    (status : RouteStatus) : Store × Option Err :=
  match RouteRepository.GetByID s.routes id with
  | .error e => (s, some e)
  | .ok none => (s, some (Err.errorf "route not found"))
  | .ok (some route) =>
    if route.Status = RouteStatusCompleted ∧ status ≠ RouteStatusCompleted then
      (s, some (Err.errorf "cannot change status of a completed route"))
    else
      match route.UpdateStatus (clk 0) status with
      | (_, some e) => (s, some e)
      | (route1, none) =>
        let packages :=
          if status = RouteStatusActive then
            RouteService.cascade PackageStatusAssigned route1.Packages s.packages
          else if status = RouteStatusCompleted then
            RouteService.cascade PackageStatusDelivered route1.Packages s.packages
          else s.packages
        ({ s with packages := packages
                  routes := RouteRepository.UpdateStatus s.routes id status }, none)

/-- The method `RouteService.UpdatePackageDeliveryStatus`. -/
def RouteService.UpdatePackageDeliveryStatus (clk : Clock) (s : Store)
    (routeID packageID : ObjectID) (delivered : Bool) : Store × Option Err :=
  match RouteRepository.GetByID s.routes routeID with
  | .error e => (s, some e)
  | .ok none => (s, some (Err.errorf "route not found"))
  | .ok (some route) =>
    if route.Status ≠ RouteStatusActive then
      (s, some (Err.errorf "can only update package status for routes in progress"))
    else
      let routes :=
        RouteRepository.UpdatePackageStatus (clk 0) s.routes routeID packageID delivered
      let status := if delivered then PackageStatusDelivered else PackageStatusAssigned
      ({ s with routes := routes
                packages := PackageRepository.UpdateStatus s.packages packageID status },
       none)

/-- The method `RouteService.UpdateRoute`: an unguarded `routeRepo.Update`. -/
def RouteService.UpdateRoute (clk : Clock) (s : Store) (route : Route) :
    Store × Option Err :=
  ({ s with routes := RouteRepository.Update (clk 0) s.routes route }, none)

/-- The method `RouteService.DeleteRoute`. -/
def RouteService.DeleteRoute (s : Store) (id : ObjectID) : Store × Option Err :=
  ({ s with routes := RouteRepository.Delete s.routes id }, none)

/-! ## The RPC adapter (`internal/interfaces/grpc/route_service.go`) -/

/-- The wire record `proto.PackageRoute`. -/
structure ProtoPackageRoute where
  PackageId : String
  OrderInRoute : Int
  Delivered : Bool
  DeliveryTimestamp : Time
deriving DecidableEq, Repr

/-- The wire record `proto.Route`. -/
structure ProtoRoute where
  Id : String
  DriverId : String
  Date : Time
  Packages : List ProtoPackageRoute
  EstimatedDistanceKm : Float32
  EstimatedTimeMin : Int
  Completed : Bool
  CreatedAt : Time
  UpdatedAt : Time
deriving DecidableEq, Repr

/-- The loop of `convertRouteToProtoResponse` over the assignments; `none` is the
nil-pointer panic of `*pkg.DeliveryTimestamp` on an absent timestamp. -/
def convertPackages : List PackageRoute → Option (List ProtoPackageRoute)
  | [] => some []
  | pkg :: pkgs =>
    match pkg.DeliveryTimestamp with
    | none => none
    | some t =>
      match convertPackages pkgs with
      | none => none
      | some rest =>
        some ({ PackageId := ObjectID.Hex pkg.PackageID
                OrderInRoute := toInt32 pkg.OrderInRoute
                Delivered := pkg.Delivered
                DeliveryTimestamp := t } :: rest)

/-- The helper `convertRouteToProtoResponse` on a non-nil route; `none` is a panic. -/
def convertRouteToProtoResponse (route : Route) : Option ProtoRoute :=
  match convertPackages route.Packages with
  | none => none
  | some packages =>
    some { Id := ObjectID.Hex route.ID
           DriverId := ObjectID.Hex route.DriverID
           Date := route.Date
           Packages := packages
           EstimatedDistanceKm := Float64.toFloat32 route.EstimatedDistanceKm
           EstimatedTimeMin := toInt32 route.EstimatedTimeMin
           Completed := decide (route.Status = RouteStatusCompleted)
           CreatedAt := route.CreatedAt
           UpdatedAt := route.UpdatedAt }

/-- What an RPC handler leaves behind: the store after the call, and either the error
it returned or its response, where a response `none` is a nil-pointer panic; the
store is the one reached when the panic was raised. -/
structure RpcResult where
  store : Store
  reply : Except Err (Option ProtoRoute)
deriving Repr

/-- The RPC operation `MarkRouteAsCompleted`, from the decoded request id on.  The
handler does not test the fetched route for `nil` before it assigns to `route.Status`;
the response is built after `UpdateRoute` has written. -/
def GrpcRouteService.MarkRouteAsCompleted (clk : Clock) (s : Store) (id : ObjectID) :
    RpcResult :=
  match RouteService.GetRoute s id with
  | .error e => { store := s, reply := .error e }
  | .ok none => { store := s, reply := .ok none }
  | .ok (some route) =>
    let route1 := { route with Status := RouteStatusCompleted }
    match RouteService.UpdateRoute clk s route1 with
    | (s1, some e) => { store := s1, reply := .error e }
    | (s1, none) =>
      { store := s1
        reply := .ok (convertRouteToProtoResponse { route1 with UpdatedAt := clk 0 }) }

/-- The field `status` of the stored package document with the given id: `none` when
no document has that id, `some none` when the document has no such field. -/
def Store.persistedStatus (s : Store) (id : ObjectID) : Option (Option PackageStatus) :=
  (s.packages.find? (fun d => d.pkg.ID == id)).map (fun d => d.status)

/-! ## Creation (`NewPackage`, `InsertOne`, the `Create` gateways) -/

/-- The constructor `models.NewPackage`; `now` is its reading of `time.Now()`. -/
def NewPackage (now : Time)
    (trackingNumber customerName customerAddress customerPhone : String)
    (weightKg volumeM3 : Float64) : Package :=
  { ID := 0
    TrackingNumber := trackingNumber
    CustomerName := customerName
    CustomerAddress := customerAddress
    CustomerPhone := customerPhone
    WeightKg := weightKg
    VolumeM3 := volumeM3
    Delivered := false
    DeliveryTimestamp := none
    CreatedAt := now
    UpdatedAt := now }

/-- The driver call `InsertOne`: the document is added after the stored ones. -/
def insertOne {α : Type} (x : α) (l : List α) : List α := l ++ [x]

/-- The method `RouteRepository.Create`: stamps `CreatedAt` and `UpdatedAt` with two
readings of the clock, inserts the document and sets `route.ID` to the inserted id.
A zero `ID` is left out of the document (`_id,omitempty`) and the driver generates the
id `newID`; that id is taken as given, a duplicate-key failure is outside the model.
The result is the collection and the route as the caller sees it afterwards. -/
def RouteRepository.Create (now1 now2 : Time) (newID : ObjectID) (routes : List Route)
    (route : Route) : List Route × Route :=
  (insertOne { route with ID := if route.ID = 0 then newID else route.ID
                          CreatedAt := now1
                          UpdatedAt := now2 } routes,
   { route with ID := if route.ID = 0 then newID else route.ID
                CreatedAt := now1
                UpdatedAt := now2 })

/-- The method `PackageRepository.Create`, as `RouteRepository.Create`; the inserted
document has no `status` field. -/
def PackageRepository.Create (now1 now2 : Time) (newID : ObjectID)
    (packages : List PackageDoc) (pkg : Package) : List PackageDoc × Package :=
  (insertOne { pkg := { pkg with ID := if pkg.ID = 0 then newID else pkg.ID
                                 CreatedAt := now1
                                 UpdatedAt := now2 }
               status := none } packages,
   { pkg with ID := if pkg.ID = 0 then newID else pkg.ID
              CreatedAt := now1
              UpdatedAt := now2 })

/-- Stands for the panic of dereferencing a `nil` entity in the methods that do not
test for it.  No branch that yields it is reachable: the gateways never return a
`nil` entity without an error. -/
def nilDereference : Err :=
  Err.errorf "runtime error: invalid memory address or nil pointer dereference"

/-- The method `RouteService.CreateRoute`; `newID` is the id the driver generates. -/
def RouteService.CreateRoute (clk : Clock) (newID : ObjectID) (s : Store)
    (driverID : ObjectID) (date : Time) : Store × Except Err Route :=
  match DriverRepository.GetByID s.drivers driverID with
  | .error e => (s, .error e)
  | .ok none => (s, .error (Err.errorf "driver not found"))
  | .ok (some driver) =>
    if driver.Active = false then (s, .error (Err.errorf "driver is not active"))
    else
      match (NewRoute (clk 0) driverID date).Validate with
      | some e => (s, .error e)
      | none =>
        ({ s with routes :=
            (RouteRepository.Create (clk 1) (clk 2) newID s.routes
              (NewRoute (clk 0) driverID date)).1 },
         .ok (RouteRepository.Create (clk 1) (clk 2) newID s.routes
              (NewRoute (clk 0) driverID date)).2)

/-! ## DriverService (`internal/application/services/driver_service.go`) -/

/-- The method `DriverService.UpdateDriver`. -/
def DriverService.UpdateDriver (clk : Clock) (s : Store) (id : ObjectID) (name : String)
    (vehicleType : VehicleType) (active : Bool) : Store × Except Err Driver :=
  match DriverRepository.GetByID s.drivers id with
  | .error e => (s, .error e)
  | .ok none => (s, .error nilDereference)
  | .ok (some driver) =>
    let driver1 : Driver :=
      { driver with Name := name, VehicleType := vehicleType, Active := active }
    ({ s with drivers := DriverRepository.Update (clk 0) s.drivers driver1 },
     .ok { driver1 with UpdatedAt := clk 0 })

/-- The loop of `DeleteDriver` over the listed routes: whether it returns early. -/
def DriverService.hasActiveRoute (id : ObjectID) : List Route → Bool
  | [] => false
  | route :: rest =>
    if route.DriverID = id ∧ route.Status = RouteStatusActive then true
    else DriverService.hasActiveRoute id rest

/-- The method `DriverService.DeleteDriver`. -/
def DriverService.DeleteDriver (s : Store) (id : ObjectID) : Store × Option Err :=
  if DriverService.hasActiveRoute id (RouteRepository.ListAll s.routes) then
    (s, some (Err.errorf "cannot delete driver with active routes"))
  else
    ({ s with drivers := DriverRepository.Delete s.drivers id }, none)

/-- The loop of `GetDriverRoutes`: append every listed route of the driver to the
result built so far. -/
def DriverService.collectDriverRoutes (driverID : ObjectID) :
    List Route → List Route → List Route
  | [], driverRoutes => driverRoutes
  | route :: rest, driverRoutes =>
    if route.DriverID = driverID then
      DriverService.collectDriverRoutes driverID rest (driverRoutes ++ [route])
    else DriverService.collectDriverRoutes driverID rest driverRoutes

/-- The method `DriverService.GetDriverRoutes`. -/
def DriverService.GetDriverRoutes (s : Store) (driverID : ObjectID) :
    Except Err (List Route) :=
  .ok (DriverService.collectDriverRoutes driverID (RouteRepository.ListAll s.routes) [])

/-! ## PackageService (`internal/application/services/package_service.go`) -/

/-- The method `PackageService.CreatePackage`; `newID` is the id the driver
generates. -/
def PackageService.CreatePackage (clk : Clock) (newID : ObjectID) (s : Store)
    (trackingNumber customerName customerAddress customerPhone : String)
    (weightKg volumeM3 : Float64) : Store × Except Err Package :=
  ({ s with packages :=
      (PackageRepository.Create (clk 1) (clk 2) newID s.packages
        (NewPackage (clk 0) trackingNumber customerName customerAddress customerPhone
          weightKg volumeM3)).1 },
   .ok (PackageRepository.Create (clk 1) (clk 2) newID s.packages
        (NewPackage (clk 0) trackingNumber customerName customerAddress customerPhone
          weightKg volumeM3)).2)

/-- The method `PackageService.UpdatePackage`: `clk 0` is the reading of the service,
`clk 1` the one of `packageRepo.Update`. -/
def PackageService.UpdatePackage (clk : Clock) (s : Store) (id : ObjectID)
    (trackingNumber customerName customerAddress customerPhone : String)
    (weightKg volumeM3 : Float64) : Store × Except Err Package :=
  match PackageRepository.GetByID s.packages id with
  | .error e => (s, .error e)
  | .ok none => (s, .error nilDereference)
  | .ok (some pkg) =>
    let pkg1 : Package :=
      { pkg with TrackingNumber := trackingNumber
                 CustomerName := customerName
                 CustomerAddress := customerAddress
                 CustomerPhone := customerPhone
                 WeightKg := weightKg
                 VolumeM3 := volumeM3
                 UpdatedAt := clk 0 }
    ({ s with packages := PackageRepository.Update (clk 1) s.packages pkg1 },
     .ok { pkg1 with UpdatedAt := clk 1 })

/-- The method `PackageService.DeletePackage`. -/
def PackageService.DeletePackage (s : Store) (id : ObjectID) : Store × Option Err :=
  match PackageRepository.GetByID s.packages id with
  | .error e => (s, some e)
  | .ok none => (s, some nilDereference)
  | .ok (some pkg) =>
    if pkg.Delivered then (s, some (Err.errorf "cannot delete a delivered package"))
    else ({ s with packages := PackageRepository.Delete s.packages id }, none)

/-- The method `PackageService.MarkAsDelivered`: `clk 0` is the reading of
`Package.MarkAsDelivered`, `clk 1` the one of `packageRepo.Update`. -/
def PackageService.MarkAsDelivered (clk : Clock) (s : Store) (id : ObjectID) :
    Store × Except Err Package :=
  match PackageRepository.GetByID s.packages id with
  | .error e => (s, .error e)
  | .ok none => (s, .error nilDereference)
  | .ok (some pkg) =>
    ({ s with packages :=
        PackageRepository.Update (clk 1) s.packages (pkg.MarkAsDelivered (clk 0)) },
     .ok { pkg.MarkAsDelivered (clk 0) with UpdatedAt := clk 1 })

/-! ## Sequences of `PackageService` calls -/

/-- One call of a `PackageService` operation that writes, with its arguments, its
clock and, for `CreatePackage`, the id the driver generates. -/
inductive PackageOp where
  | create (clk : Clock) (newID : ObjectID)
      (trackingNumber customerName customerAddress customerPhone : String)
      (weightKg volumeM3 : Float64)
  | update (clk : Clock) (id : ObjectID)
      (trackingNumber customerName customerAddress customerPhone : String)
      (weightKg volumeM3 : Float64)
  | markAsDelivered (clk : Clock) (id : ObjectID)
  | delete (id : ObjectID)

/-- The store after the call, whether it returned an error or not. -/
def PackageOp.run (s : Store) : PackageOp → Store
  | .create clk newID t n a p w v => (PackageService.CreatePackage clk newID s t n a p w v).1
  | .update clk id t n a p w v => (PackageService.UpdatePackage clk s id t n a p w v).1
  | .markAsDelivered clk id => (PackageService.MarkAsDelivered clk s id).1
  | .delete id => (PackageService.DeletePackage s id).1

/-- The store after a sequence of calls. -/
def PackageOp.runAll (s : Store) (ops : List PackageOp) : Store :=
  ops.foldl PackageOp.run s

/-! ## The HTTP adapter (`internal/interfaces/http/handlers`) -/

/-- The value of one hexadecimal digit, in either case, as `encoding/hex` reads it. -/
def fromHexChar (c : Char) : Option Nat :=
  if 48 ≤ c.toNat ∧ c.toNat ≤ 57 then some (c.toNat - 48)
  else if 97 ≤ c.toNat ∧ c.toNat ≤ 102 then some (c.toNat - 97 + 10)
  else if 65 ≤ c.toNat ∧ c.toNat ≤ 70 then some (c.toNat - 65 + 10)
  else none

/-- The number written by a list of hexadecimal digits, most significant first, after
the digits read so far; `none` when a character is not a hexadecimal digit. -/
def decodeHex : List Char → Nat → Option Nat
  | [], acc => some acc
  | c :: cs, acc =>
    match fromHexChar c with
    | none => none
    | some d => decodeHex cs (16 * acc + d)

/-- The driver library's `primitive.ObjectIDFromHex`: the string must be 24 bytes
long and consist of hexadecimal digits; `none` is its error. -/
def ObjectIDFromHex (s : String) : Option ObjectID :=
  if s.utf8ByteSize ≠ 24 then none else decodeHex s.data 0

/-- The constant `http.StatusOK`. -/
def StatusOK : Nat := 200

/-- The constant `http.StatusBadRequest`. -/
def StatusBadRequest : Nat := 400

/-- The constant `http.StatusNotFound`. -/
def StatusNotFound : Nat := 404

/-- The constant `http.StatusInternalServerError`. -/
def StatusInternalServerError : Nat := 500

/-- What `c.JSON` writes: the status code and either the `error` message of a
`gin.H` body or the marshalled entity (`none` is a nil pointer, written as `null`). -/
structure HttpResponse (α : Type) where
  status : Nat
  body : Except String (Option α)

/-- The method `DriverService.GetDriver`. -/
def DriverService.GetDriver (s : Store) (id : ObjectID) : Except Err (Option Driver) :=
  DriverRepository.GetByID s.drivers id

/-- The method `PackageService.GetPackage`. -/
def PackageService.GetPackage (s : Store) (id : ObjectID) : Except Err (Option Package) :=
  PackageRepository.GetByID s.packages id

/-- The handler `DriverHandler.GetDriver`; `param` is the path parameter `id`. -/
def DriverHandler.GetDriver (s : Store) (param : String) : HttpResponse Driver :=
  match ObjectIDFromHex param with
  | none => { status := StatusBadRequest, body := .error "invalid driver id" }
  | some id =>
    match DriverService.GetDriver s id with
    | .error _ => { status := StatusNotFound, body := .error "driver not found" }
    | .ok driver => { status := StatusOK, body := .ok driver }

/-- The handler `PackageHandler.GetPackage`; `param` is the path parameter `id`. -/
def PackageHandler.GetPackage (s : Store) (param : String) : HttpResponse Package :=
  match ObjectIDFromHex param with
  | none => { status := StatusBadRequest, body := .error "invalid package id" }
  | some id =>
    match PackageService.GetPackage s id with
    | .error _ => { status := StatusNotFound, body := .error "package not found" }
    | .ok pkg => { status := StatusOK, body := .ok pkg }

/-- The handler `RouteHandler.GetRoute`; `param` is the path parameter `id`.  An error
of the service is answered before the fetched route is tested for `nil`. -/
def RouteHandler.GetRoute (s : Store) (param : String) : HttpResponse Route :=
  match ObjectIDFromHex param with
  | none => { status := StatusBadRequest, body := .error "invalid route ID" }
  | some id =>
    match RouteService.GetRoute s id with
    | .error err => { status := StatusInternalServerError, body := .error err.Error }
    | .ok none => { status := StatusNotFound, body := .error "route not found" }
    | .ok (some route) => { status := StatusOK, body := .ok (some route) }

/-! ## The RPC adapter of drivers (`internal/interfaces/grpc/driver_service.go`) -/

/-- The helper `convertRouteToProto`, which `GetDriverRoutes` applies to every route of
the driver; its loop over the assignments is the one of `convertPackages`, and `none`
is the nil-pointer panic of `*pkg.DeliveryTimestamp`. -/
def convertRouteToProto (route : Route) : Option ProtoRoute :=
  match convertPackages route.Packages with
  | none => none
  | some protoPackages =>
    some { Id := ObjectID.Hex route.ID
           DriverId := ObjectID.Hex route.DriverID
           Date := route.Date
           Packages := protoPackages
           EstimatedDistanceKm := Float64.toFloat32 route.EstimatedDistanceKm
           EstimatedTimeMin := toInt32 route.EstimatedTimeMin
           Completed := decide (route.Status = RouteStatusCompleted)
           CreatedAt := route.CreatedAt
           UpdatedAt := route.UpdatedAt }

/-! ## Sequences of calls of the `Route` methods -/

/-- One call of a method of `models.Route` that writes, with its arguments and its
clock. -/
inductive RouteOp where
  | addPackage (clk : Clock) (packageID : ObjectID)
  | updatePackageStatus (clk : Clock) (packageID : ObjectID) (delivered : Bool)
  | updateStatus (clk : Clock) (status : RouteStatus)

/-- The receiver after the call, whatever the call returned. -/
def RouteOp.run (r : Route) : RouteOp → Route
  | .addPackage clk packageID => r.AddPackage (clk 0) packageID
  | .updatePackageStatus clk packageID delivered =>
    (r.UpdatePackageStatus clk packageID delivered).1
  | .updateStatus clk status => (r.UpdateStatus (clk 0) status).1

/-- The receiver after a sequence of calls. -/
def RouteOp.runAll (r : Route) (ops : List RouteOp) : Route :=
  ops.foldl RouteOp.run r

/-- The package id of an `AddPackage` call. -/
def RouteOp.added : RouteOp → Option ObjectID
  | .addPackage _ packageID => some packageID
  | _ => none

/-! ## Sample data -/

/-- A stored package with the given id and delivered flag. -/
def samplePackage (id : ObjectID) (delivered : Bool) : PackageDoc :=
  { pkg :=
      { ID := id
        TrackingNumber := "T1"
        CustomerName := "Bob"
        CustomerAddress := "1 Main St"
        CustomerPhone := "555"
        WeightKg := Float64.ofInt 2
        VolumeM3 := Float64.ofInt 1
        Delivered := delivered
        DeliveryTimestamp := if delivered then some 50 else none
        CreatedAt := 10
        UpdatedAt := 10 }
    status := none }

/-- An assignment as `Route.AddPackage` creates it. -/
def sampleAssignment (packageID : ObjectID) (order : Int) : PackageRoute :=
  { PackageID := packageID, OrderInRoute := order, Delivered := false,
    DeliveryTimestamp := none }

/-- An assignment that has been delivered at time 60. -/
def deliveredAssignment (packageID : ObjectID) (order : Int) : PackageRoute :=
  { PackageID := packageID, OrderInRoute := order, Delivered := true,
    DeliveryTimestamp := some 60 }

/-- A stored route with id 1 of driver 3, with the given status and assignments. -/
def sampleRoute (status : RouteStatus) (packages : List PackageRoute) : Route :=
  { ID := 1
    DriverID := 3
    Date := 20240101
    Packages := packages
    EstimatedDistanceKm := Float64.mul (Float64.ofInt packages.length) (Float64.ofInt 5)
    EstimatedTimeMin := 6 * packages.length
    Status := status
    CreatedAt := 20
    UpdatedAt := 20 }

/-- A store with packages 7 and 8 (undelivered) and 9 (delivered) and one route. -/
def sampleStore (status : RouteStatus) (packages : List PackageRoute) : Store :=
  { drivers := [{ ID := 3, Name := "Alice", VehicleType := "van", Active := true,
                  CreatedAt := 5, UpdatedAt := 5 }]
    packages := [samplePackage 7 false, samplePackage 8 false, samplePackage 9 true]
    routes := [sampleRoute status packages] }

/-- A clock that starts at 100 and advances by one at every reading. -/
def sampleClock : Clock := fun k => 100 + k

/-- The start of the end-to-end scenario: the active driver 3, the undelivered package
7 and the empty pending route 1 of driver 3. -/
def scenarioStore : Store :=
  { drivers := [{ ID := 3, Name := "Alice", VehicleType := "van", Active := true,
                  CreatedAt := 5, UpdatedAt := 5 }]
    packages := [samplePackage 7 false]
    routes := [sampleRoute RouteStatusPending []] }

/-- Scenario, step 1: package 7 is added to route 1. -/
def scenarioAdded : Store × Option Err :=
  RouteService.AddPackagesToRoute sampleClock scenarioStore 1 [7]

/-- Scenario, step 2: route 1 is made active. -/
def scenarioActivated : Store × Option Err :=
  RouteService.UpdateRouteStatus sampleClock scenarioAdded.1 1 RouteStatusActive

/-- Scenario, step 3: a first attempt to complete route 1. -/
def scenarioRefused : Store × Option Err :=
  RouteService.UpdateRouteStatus sampleClock scenarioActivated.1 1 RouteStatusCompleted

/-- Scenario, step 4: package 7 is reported delivered on route 1. -/
def scenarioDelivered : Store × Option Err :=
  RouteService.UpdatePackageDeliveryStatus sampleClock scenarioRefused.1 1 7 true

/-- Scenario, step 5: the second attempt to complete route 1. -/
def scenarioCompleted : Store × Option Err :=
  RouteService.UpdateRouteStatus sampleClock scenarioDelivered.1 1 RouteStatusCompleted

/-- A store with the undelivered package 7, the active route 1 whose only assignment,
of package 7, is marked delivered, and the empty pending route 2. -/
def handoverStore : Store :=
  { drivers := []
    packages := [samplePackage 7 false]
    routes := [sampleRoute RouteStatusActive [deliveredAssignment 7 1],
               { sampleRoute RouteStatusPending [] with ID := 2 }] }

/-! ## Lemmas on the store primitives -/

theorem find?_updateOne_self {α : Type} (p : α → Bool) (f : α → α) (l : List α)
    (hf : ∀ x, p x = true → p (f x) = true) :
    (updateOne p f l).find? p = (l.find? p).map f := by
  induction l with
  | nil => rfl
  | cons x xs ih =>
    by_cases hx : p x = true
    · simp [updateOne, hx, List.find?, hf x hx]
    · simp [updateOne, hx, List.find?, ih]

theorem find?_updateOne_disjoint {α : Type} (p q : α → Bool) (f : α → α) (l : List α)
    (hq : ∀ x, p x = true → q (f x) = false) (hd : ∀ x, p x = true → q x = false) :
    (updateOne p f l).find? q = l.find? q := by
  induction l with
  | nil => rfl
  | cons x xs ih =>
    by_cases hx : p x = true
    · simp [updateOne, hx, List.find?, hq x hx, hd x hx]
    · by_cases hqx : q x = true
      · simp [updateOne, hx, List.find?, hqx]
      · simp [updateOne, hx, List.find?, hqx, ih]

theorem updateOne_eq_self {α : Type} (p : α → Bool) (f : α → α) (l : List α)
    (h : ∀ x ∈ l, p x = false) : updateOne p f l = l := by
  induction l with
  | nil => rfl
  | cons x xs ih =>
    have hx : p x = false := h x (List.mem_cons_self x xs)
    have hxs : ∀ y ∈ xs, p y = false := fun y hy => h y (List.mem_cons_of_mem x hy)
    simp [updateOne, hx, ih hxs]

theorem RouteRepository.find_of_getByID {routes : List Route} {id : ObjectID} {r : Route}
    (h : RouteRepository.GetByID routes id = .ok (some r)) :
    routes.find? (fun r => r.ID == id) = some r := by
  unfold RouteRepository.GetByID at h
  split at h
  · cases h
  · rename_i r0 hr0
    cases h
    exact hr0

theorem RouteRepository.route_id_of_getByID {routes : List Route} {id : ObjectID} {r : Route}
    (h : RouteRepository.GetByID routes id = .ok (some r)) : r.ID = id := by
  have h1 := List.find?_some (RouteRepository.find_of_getByID h)
  simpa using h1

theorem RouteRepository.getByID_of_find {routes : List Route} {id : ObjectID} {r : Route}
    (h : routes.find? (fun r => r.ID == id) = some r) :
    RouteRepository.GetByID routes id = .ok (some r) := by
  simp [RouteRepository.GetByID, h]

theorem PackageRepository.package_id_of_getByID {packages : List PackageDoc} {id : ObjectID}
    {pkg : Package} (h : PackageRepository.GetByID packages id = .ok (some pkg)) :
    pkg.ID = id := by
  unfold PackageRepository.GetByID at h
  split at h
  · cases h
  · rename_i d hd
    cases h
    have h1 := List.find?_some hd
    simpa using h1

/-! ## Lemmas on `AddPackagesToRoute` -/

theorem RouteService.addPackages_id (clk : Clock) (pkgs : List Package) :
    ∀ (k : Nat) (route : Route), (RouteService.addPackages clk k pkgs route).ID = route.ID := by
  induction pkgs with
  | nil => intro k route; rfl
  | cons p ps ih => intro k route; simp [RouteService.addPackages, ih, Route.AddPackage]

theorem RouteService.addPackages_packages (clk : Clock) (pkgs : List Package) :
    ∀ (k : Nat) (route : Route),
      (RouteService.addPackages clk k pkgs route).Packages =
        route.Packages ++
          ((pkgs.map (fun p => p.ID)).enumFrom route.Packages.length).map
            (fun p => { PackageID := p.2, OrderInRoute := (p.1 : Int) + 1,
                        Delivered := false, DeliveryTimestamp := none }) := by
  induction pkgs with
  | nil => intro k route; simp [RouteService.addPackages]
  | cons p ps ih =>
    intro k route
    simp [RouteService.addPackages, ih, Route.AddPackage, List.enumFrom]

theorem RouteService.getPackages_ok (packages : List PackageDoc) (ids : List ObjectID)
    (h : ∀ id ∈ ids, ∃ pkg, PackageRepository.GetByID packages id = .ok (some pkg) ∧
      pkg.Delivered = false) :
    ∃ pkgs, RouteService.getPackages packages ids = .ok pkgs ∧
      pkgs.map (fun p => p.ID) = ids := by
  induction ids with
  | nil => exact ⟨[], rfl, rfl⟩
  | cons id ids ih =>
    obtain ⟨pkg, hpkg, hdel⟩ := h id (List.mem_cons_self id ids)
    obtain ⟨pkgs, hpkgs, hmap⟩ := ih (fun j hj => h j (List.mem_cons_of_mem id hj))
    refine ⟨pkg :: pkgs, ?_, ?_⟩
    · simp [RouteService.getPackages, hpkg, hdel, hpkgs]
    · simp [hmap, PackageRepository.package_id_of_getByID hpkg]

theorem RouteService.getPackages_length {packages : List PackageDoc} :
    ∀ {ids : List ObjectID} {pkgs : List Package},
      RouteService.getPackages packages ids = .ok pkgs → pkgs.length = ids.length := by
  intro ids
  induction ids with
  | nil => intro pkgs h; simp [RouteService.getPackages] at h; simp [← h]
  | cons id ids ih =>
    intro pkgs h
    unfold RouteService.getPackages at h
    split at h
    · cases h
    · cases h
    · split at h
      · cases h
      · split at h
        · cases h
        · rename_i rest hrest
          cases h
          simp [ih hrest]

theorem RouteService.getPackages_error (packages : List PackageDoc) (ids : List ObjectID)
    (h : ∃ id ∈ ids, ∀ pkg, PackageRepository.GetByID packages id = .ok (some pkg) →
      pkg.Delivered = true) :
    ∃ e, RouteService.getPackages packages ids = .error e := by
  induction ids with
  | nil => obtain ⟨id, hid, _⟩ := h; cases hid
  | cons id ids ih =>
    unfold RouteService.getPackages
    split
    · exact ⟨_, rfl⟩
    · exact ⟨_, rfl⟩
    · rename_i pkg hpkg
      split
      · exact ⟨_, rfl⟩
      · rename_i hnd
        obtain ⟨j, hj, hbad⟩ := h
        rcases List.mem_cons.mp hj with hji | hjt
        · subst hji
          exact absurd (hbad pkg hpkg) hnd
        · obtain ⟨e, he⟩ := ih ⟨j, hjt, hbad⟩
          exact ⟨e, by simp [he]⟩

/-- The route written by a successful `AddPackagesToRoute`, spelled out. -/
theorem RouteService.addPackagesToRoute_ok (clk : Clock) (s : Store) (routeID : ObjectID)
    (packageIDs : List ObjectID) (route : Route) (pkgs : List Package)
    (hroute : RouteRepository.GetByID s.routes routeID = .ok (some route))
    (hpending : route.Status = RouteStatusPending)
    (hpkgs : RouteService.getPackages s.packages packageIDs = .ok pkgs) :
    (RouteService.AddPackagesToRoute clk s routeID packageIDs).2 = none ∧
    (RouteService.AddPackagesToRoute clk s routeID packageIDs).1.drivers = s.drivers ∧
    (RouteService.AddPackagesToRoute clk s routeID packageIDs).1.packages = s.packages ∧
    RouteRepository.GetByID
        (RouteService.AddPackagesToRoute clk s routeID packageIDs).1.routes routeID =
      .ok (some { RouteService.addPackages clk 0 pkgs route with
        EstimatedDistanceKm := calculateEstimatedDistance pkgs
        EstimatedTimeMin := calculateEstimatedTime (calculateEstimatedDistance pkgs)
        UpdatedAt := clk pkgs.length }) := by
  have hid : route.ID = routeID := RouteRepository.route_id_of_getByID hroute
  have hfind := RouteRepository.find_of_getByID hroute
  have hres : RouteService.AddPackagesToRoute clk s routeID packageIDs =
      ({ s with
          routes := RouteRepository.Update (clk pkgs.length) s.routes
            { RouteService.addPackages clk 0 pkgs route with
              EstimatedDistanceKm := calculateEstimatedDistance pkgs
              EstimatedTimeMin := calculateEstimatedTime (calculateEstimatedDistance pkgs) } },
       none) := by
    simp [RouteService.AddPackagesToRoute, hroute, hpending, hpkgs]
  rw [hres]
  refine ⟨rfl, rfl, rfl, ?_⟩
  apply RouteRepository.getByID_of_find
  simp only [RouteRepository.Update, RouteService.addPackages_id, hid]
  rw [find?_updateOne_self _ _ _ (by intro x _; simp [RouteService.addPackages_id, hid]), hfind]
  rfl

theorem RouteService.addPackagesToRoute_inv {clk : Clock} {s : Store} {routeID : ObjectID}
    {packageIDs : List ObjectID}
    (hok : (RouteService.AddPackagesToRoute clk s routeID packageIDs).2 = none) :
    ∃ route pkgs, RouteRepository.GetByID s.routes routeID = .ok (some route) ∧
      route.Status = RouteStatusPending ∧
      RouteService.getPackages s.packages packageIDs = .ok pkgs := by
  unfold RouteService.AddPackagesToRoute at hok
  split at hok
  · cases hok
  · cases hok
  · rename_i route hroute
    split at hok
    · cases hok
    · rename_i hst
      split at hok
      · cases hok
      · rename_i pkgs hpkgs
        exact ⟨route, pkgs, hroute, not_not.mp hst, hpkgs⟩

/-! ## Lemmas on `UpdateRouteStatus` and `UpdatePackageDeliveryStatus` -/

theorem Route.updateStatus_error_iff (r : Route) (now : Time) (status : RouteStatus) :
    (r.UpdateStatus now status).2 = some Err.ErrRouteHasPendingPackages ↔
      status = RouteStatusCompleted ∧ ∃ p ∈ r.Packages, p.Delivered = false := by
  unfold Route.UpdateStatus
  split
  · rename_i h
    simpa using h
  · rename_i h
    simpa using h

theorem Route.updateStatus_cases (r : Route) (now : Time) (status : RouteStatus) :
    r.UpdateStatus now status = (r, some Err.ErrRouteHasPendingPackages) ∨
    r.UpdateStatus now status = ({ r with Status := status, UpdatedAt := now }, none) := by
  unfold Route.UpdateStatus
  split
  · exact Or.inl rfl
  · exact Or.inr rfl

/-- The store written by a successful `UpdateRouteStatus`, spelled out. -/
theorem RouteService.updateRouteStatus_ok {clk : Clock} {s : Store} {id : ObjectID}
    {status : RouteStatus} {route : Route}
    (hroute : RouteRepository.GetByID s.routes id = .ok (some route))
    (hok : (RouteService.UpdateRouteStatus clk s id status).2 = none) :
    RouteService.UpdateRouteStatus clk s id status =
      ({ s with
          packages :=
            if status = RouteStatusActive then
              RouteService.cascade PackageStatusAssigned route.Packages s.packages
            else if status = RouteStatusCompleted then
              RouteService.cascade PackageStatusDelivered route.Packages s.packages
            else s.packages
          routes := RouteRepository.UpdateStatus s.routes id status }, none) := by
  unfold RouteService.UpdateRouteStatus at hok ⊢
  simp only [hroute] at hok ⊢
  split at hok
  · cases hok
  · rename_i hguard
    rw [if_neg hguard]
    rcases Route.updateStatus_cases route (clk 0) status with h | h
    · rw [h] at hok; cases hok
    · rw [h]

theorem RouteRepository.find_route_updateStatus (routes : List Route) (id : ObjectID)
    (status : RouteStatus) :
    (RouteRepository.UpdateStatus routes id status).find? (fun r => r.ID == id) =
      (routes.find? (fun r => r.ID == id)).map (fun r => { r with Status := status }) := by
  unfold RouteRepository.UpdateStatus
  exact find?_updateOne_self _ _ _ (fun x hx => hx)

theorem PackageRepository.find_package_updateStatus (packages : List PackageDoc)
    (id id2 : ObjectID) (status : PackageStatus) :
    (PackageRepository.UpdateStatus packages id status).find? (fun d => d.pkg.ID == id2) =
      (packages.find? (fun d => d.pkg.ID == id2)).map
        (fun d => if id = id2 then { d with status := some status } else d) := by
  unfold PackageRepository.UpdateStatus
  by_cases h : id = id2
  · subst h
    simp only [if_true]
    exact find?_updateOne_self _ _ _ (fun x hx => hx)
  · simp only [if_neg h]
    rw [find?_updateOne_disjoint]
    · cases List.find? (fun d => d.pkg.ID == id2) packages <;> rfl
    · intro x hx
      have hx2 : x.pkg.ID = id := by simpa using hx
      simp [hx2, h]
    · intro x hx
      have hx2 : x.pkg.ID = id := by simpa using hx
      simp [hx2, h]

theorem RouteService.find_cascade (status : PackageStatus) (ps : List PackageRoute) :
    ∀ (packages : List PackageDoc) (id : ObjectID),
      (RouteService.cascade status ps packages).find? (fun d => d.pkg.ID == id) =
        (packages.find? (fun d => d.pkg.ID == id)).map
          (fun d => if ∃ p ∈ ps, p.PackageID = id then { d with status := some status }
            else d) := by
  induction ps with
  | nil => intro packages id; simp [RouteService.cascade]
  | cons p ps ih =>
    intro packages id
    rw [RouteService.cascade, ih, PackageRepository.find_package_updateStatus, Option.map_map]
    congr 1
    funext d
    by_cases h1 : p.PackageID = id <;> by_cases h2 : ∃ q ∈ ps, q.PackageID = id <;>
      simp [h1, h2]

/-- The array filter `packages._id` of `RouteRepository.UpdatePackageStatus` matches
no assignment: the struct tags store the package id under `package_id`. -/
theorem PackageRoute.matchesField_id (value : Bson) (p : PackageRoute) :
    PackageRoute.matchesField "_id" value p = false := by
  unfold PackageRoute.matchesField PackageRoute.bson
  cases p.DeliveryTimestamp <;> simp [List.lookup]

/-- So `RouteRepository.UpdatePackageStatus` writes nothing, whatever it is given. -/
theorem RouteRepository.updatePackageStatus_eq (now : Time) (routes : List Route)
    (routeID packageID : ObjectID) (delivered : Bool) :
    RouteRepository.UpdatePackageStatus now routes routeID packageID delivered = routes := by
  unfold RouteRepository.UpdatePackageStatus
  apply updateOne_eq_self
  intro r _
  have h : r.Packages.any (PackageRoute.matchesField "_id" (Bson.objectID packageID)) =
      false := by
    rw [List.any_eq_false]
    intro p _
    simp [PackageRoute.matchesField_id]
  simp [h]

/-! ## Lemmas on `float64` rounding -/

theorem find?_eraseP_disjoint {α : Type} (p q : α → Bool) (l : List α)
    (hd : ∀ x, q x = true → p x = false) :
    (l.eraseP q).find? p = l.find? p := by
  induction l with
  | nil => rfl
  | cons x xs ih =>
    by_cases hq : q x = true
    · simp [List.eraseP_cons, hq, List.find?, hd x hq]
    · by_cases hp : p x = true
      · simp [List.eraseP_cons, hq, List.find?, hp]
      · simp [List.eraseP_cons, hq, List.find?, hp, ih]

theorem filter_eraseP_disjoint {α : Type} (p q : α → Bool) (l : List α)
    (hd : ∀ x, q x = true → p x = false) :
    (l.eraseP q).filter p = l.filter p := by
  induction l with
  | nil => rfl
  | cons x xs ih =>
    by_cases hq : q x = true
    · simp [List.eraseP_cons, hq, List.filter, hd x hq]
    · by_cases hp : p x = true
      · simp [List.eraseP_cons, hq, List.filter, hp, ih]
      · simp [List.eraseP_cons, hq, List.filter, hp, ih]

theorem filter_updateOne_disjoint {α : Type} (p q : α → Bool) (f : α → α) (l : List α)
    (hq : ∀ x, q x = true → p (f x) = false) (hd : ∀ x, q x = true → p x = false) :
    (updateOne q f l).filter p = l.filter p := by
  induction l with
  | nil => rfl
  | cons x xs ih =>
    by_cases hx : q x = true
    · simp [updateOne, hx, List.filter, hq x hx, hd x hx]
    · by_cases hp : p x = true
      · simp [updateOne, hx, List.filter, hp, ih]
      · simp [updateOne, hx, List.filter, hp, ih]

theorem length_updateOne {α : Type} (q : α → Bool) (f : α → α) (l : List α) :
    (updateOne q f l).length = l.length := by
  induction l with
  | nil => rfl
  | cons x xs ih =>
    by_cases hx : q x = true
    · simp [updateOne, hx]
    · simp [updateOne, hx, ih]

theorem length_eraseP_of_find {α : Type} (q : α → Bool) (l : List α) (x : α)
    (h : l.find? q = some x) : (l.eraseP q).length + 1 = l.length := by
  induction l with
  | nil => simp at h
  | cons y ys ih =>
    by_cases hq : q y = true
    · simp [List.eraseP_cons, hq]
    · have h2 : ys.find? q = some x := by simpa [List.find?, hq] using h
      simp [List.eraseP_cons, hq, ih h2]

/-- With distinct keys, no document with the erased key is left. -/
theorem not_mem_eraseP_of_nodup {α : Type} (key : α → ObjectID) (id : ObjectID)
    (l : List α) (hn : (l.map key).Nodup) :
    ∀ x ∈ l.eraseP (fun y => key y == id), key x ≠ id := by
  induction l with
  | nil => intro x hx; simp at hx
  | cons y ys ih =>
    have hn2 : (ys.map key).Nodup := (List.nodup_cons.mp hn).2
    have hy : key y ∉ ys.map key := (List.nodup_cons.mp hn).1
    intro x hx
    by_cases hq : key y = id
    · have hx2 : x ∈ ys := by simpa [List.eraseP_cons, hq] using hx
      intro hxid
      apply hy
      rw [hq, ← hxid]
      exact List.mem_map_of_mem key hx2
    · have hx2 : x = y ∨ x ∈ ys.eraseP (fun z => key z == id) := by
        simpa [List.eraseP_cons, hq] using hx
      rcases hx2 with h | h
      · rw [h]; exact hq
      · exact ih hn2 x h

theorem find?_eq_none_of_forall_ne {α : Type} (key : α → ObjectID) (id : ObjectID)
    (l : List α) (h : ∀ x ∈ l, key x ≠ id) : l.find? (fun y => key y == id) = none := by
  rw [List.find?_eq_none]
  intro x hx
  simpa using h x hx

theorem DriverService.hasActiveRoute_iff (id : ObjectID) (routes : List Route) :
    DriverService.hasActiveRoute id routes = true ↔
      ∃ r ∈ routes, r.DriverID = id ∧ r.Status = RouteStatusActive := by
  induction routes with
  | nil => simp [DriverService.hasActiveRoute]
  | cons r rs ih =>
    unfold DriverService.hasActiveRoute
    by_cases h : r.DriverID = id ∧ r.Status = RouteStatusActive
    · rw [if_pos h]
      simp only [true_iff]
      exact ⟨r, List.mem_cons_self r rs, h⟩
    · rw [if_neg h, ih]
      constructor
      · rintro ⟨x, hx, hx2⟩
        exact ⟨x, List.mem_cons_of_mem r hx, hx2⟩
      · rintro ⟨x, hx, hx2⟩
        rcases List.mem_cons.mp hx with hxr | hxr
        · subst hxr; exact absurd hx2 h
        · exact ⟨x, hxr, hx2⟩

theorem PackageRepository.find_of_package_getByID {packages : List PackageDoc}
    {id : ObjectID} {pkg : Package}
    (h : PackageRepository.GetByID packages id = .ok (some pkg)) :
    ∃ d, packages.find? (fun d => d.pkg.ID == id) = some d ∧ d.pkg = pkg := by
  unfold PackageRepository.GetByID at h
  split at h
  · cases h
  · rename_i d hd
    cases h
    exact ⟨d, hd, rfl⟩

theorem PackageRepository.getByID_of_package_find {packages : List PackageDoc}
    {id : ObjectID} {d : PackageDoc}
    (h : packages.find? (fun d => d.pkg.ID == id) = some d) :
    PackageRepository.GetByID packages id = .ok (some d.pkg) := by
  simp [PackageRepository.GetByID, h]

theorem PackageRepository.getByID_none {packages : List PackageDoc} {id : ObjectID}
    (h : ∀ d ∈ packages, d.pkg.ID ≠ id) :
    PackageRepository.GetByID packages id = .error Err.ErrNoDocuments := by
  have hnone := find?_eq_none_of_forall_ne (fun d : PackageDoc => d.pkg.ID) id packages h
  simp only [PackageRepository.GetByID, hnone]

/-- After `PackageRepository.Update` of a stored package, `GetByID` returns the
package written, with the gateway's stamp. -/
theorem PackageRepository.getByID_update (now : Time) (packages : List PackageDoc)
    (id : ObjectID) (old new : Package)
    (hold : PackageRepository.GetByID packages id = .ok (some old))
    (hid : new.ID = id) :
    PackageRepository.GetByID (PackageRepository.Update now packages new) id =
      .ok (some { new with UpdatedAt := now }) := by
  subst hid
  obtain ⟨d, hd, _⟩ := PackageRepository.find_of_package_getByID hold
  have h := find?_updateOne_self (fun x : PackageDoc => x.pkg.ID == new.ID)
    (fun _ => ({ pkg := { new with UpdatedAt := now }, status := none } : PackageDoc))
    packages (by intro x _; simp)
  unfold PackageRepository.Update
  simp only [PackageRepository.GetByID, h, hd, Option.map_some']

theorem PackageService.markAsDelivered_ok (clk : Clock) (s : Store) (id : ObjectID)
    (pkg : Package) (hpkg : PackageRepository.GetByID s.packages id = .ok (some pkg)) :
    PackageService.MarkAsDelivered clk s id =
      ({ s with packages :=
          PackageRepository.Update (clk 1) s.packages (pkg.MarkAsDelivered (clk 0)) },
       .ok { pkg.MarkAsDelivered (clk 0) with UpdatedAt := clk 1 }) := by
  simp [PackageService.MarkAsDelivered, hpkg]

theorem DriverRepository.getByID_cases (drivers : List Driver) (id : ObjectID) :
    (DriverRepository.GetByID drivers id = .error Err.ErrNoDocuments ∧
      ∀ d ∈ drivers, d.ID ≠ id) ∨
    ∃ d, DriverRepository.GetByID drivers id = .ok (some d) ∧ d ∈ drivers ∧ d.ID = id ∧
      drivers.find? (fun x => x.ID == id) = some d := by
  unfold DriverRepository.GetByID
  cases h : drivers.find? (fun x => x.ID == id) with
  | none =>
    left
    refine ⟨rfl, ?_⟩
    intro d hd
    have := List.find?_eq_none.mp h d hd
    simpa using this
  | some d =>
    right
    refine ⟨d, rfl, List.mem_of_find?_eq_some h, ?_, rfl⟩
    simpa using List.find?_some h

theorem RouteService.createRoute_ok (clk : Clock) (newID : ObjectID) (s : Store)
    (driverID : ObjectID) (date : Time) (driver : Driver)
    (hdriver : DriverRepository.GetByID s.drivers driverID = .ok (some driver))
    (hactive : driver.Active = true) :
    RouteService.CreateRoute clk newID s driverID date =
      ({ s with routes := s.routes ++
          [{ NewRoute (clk 0) driverID date with
              ID := newID, CreatedAt := clk 1, UpdatedAt := clk 2 }] },
       .ok { NewRoute (clk 0) driverID date with
              ID := newID, CreatedAt := clk 1, UpdatedAt := clk 2 }) := by
  simp [RouteService.CreateRoute, hdriver, hactive, Route.Validate, RouteRepository.Create,
    insertOne, NewRoute]

theorem PackageRepository.getByID_update_other (now : Time) (packages : List PackageDoc)
    (id : ObjectID) (new : Package) (hne : new.ID ≠ id) :
    PackageRepository.GetByID (PackageRepository.Update now packages new) id =
      PackageRepository.GetByID packages id := by
  unfold PackageRepository.GetByID PackageRepository.Update
  rw [find?_updateOne_disjoint]
  · intro x _
    simpa using hne
  · intro x hx
    have hx2 : x.pkg.ID = new.ID := by simpa using hx
    simp [hx2, hne]

theorem PackageRepository.getByID_delete_other (packages : List PackageDoc)
    (id id2 : ObjectID) (hne : id2 ≠ id) :
    PackageRepository.GetByID (PackageRepository.Delete packages id2) id =
      PackageRepository.GetByID packages id := by
  unfold PackageRepository.GetByID PackageRepository.Delete
  rw [find?_eraseP_disjoint]
  intro x hx
  have hx2 : x.pkg.ID = id2 := by simpa using hx
  simp [hx2, hne]

theorem PackageRepository.getByID_insert (packages : List PackageDoc) (id : ObjectID)
    (pkg : Package) (doc : PackageDoc)
    (h : PackageRepository.GetByID packages id = .ok (some pkg)) :
    PackageRepository.GetByID (insertOne doc packages) id = .ok (some pkg) := by
  obtain ⟨d, hd, hdp⟩ := PackageRepository.find_of_package_getByID h
  simp [PackageRepository.GetByID, insertOne, List.find?_append, hd, hdp]

theorem PackageService.updatePackage_ok (clk : Clock) (s : Store) (id : ObjectID)
    (t n a p : String) (w v : Float64) (pkg : Package)
    (hpkg : PackageRepository.GetByID s.packages id = .ok (some pkg)) :
    PackageService.UpdatePackage clk s id t n a p w v =
      ({ s with
          packages := PackageRepository.Update (clk 1) s.packages
            { pkg with
              TrackingNumber := t, CustomerName := n, CustomerAddress := a,
              CustomerPhone := p, WeightKg := w, VolumeM3 := v, UpdatedAt := clk 0 } },
       .ok { pkg with
              TrackingNumber := t, CustomerName := n, CustomerAddress := a,
              CustomerPhone := p, WeightKg := w, VolumeM3 := v, UpdatedAt := clk 1 }) := by
  simp [PackageService.UpdatePackage, hpkg]

/-- One `PackageService` call keeps a stored delivered package stored and delivered,
and keeps its delivery timestamp non-null. -/
theorem PackageOp.run_keeps_delivered (op : PackageOp) (s : Store) (id : ObjectID)
    (pkg : Package) (hpkg : PackageRepository.GetByID s.packages id = .ok (some pkg))
    (hdel : pkg.Delivered = true) :
    ∃ pkg2, PackageRepository.GetByID (PackageOp.run s op).packages id = .ok (some pkg2) ∧
      pkg2.Delivered = true ∧
      (pkg.DeliveryTimestamp ≠ none → pkg2.DeliveryTimestamp ≠ none) := by
  cases op with
  | create clk newID t n a p w v =>
    refine ⟨pkg, ?_, hdel, fun h => h⟩
    simp only [PackageOp.run, PackageService.CreatePackage, PackageRepository.Create]
    exact PackageRepository.getByID_insert _ _ _ _ hpkg
  | update clk id2 t n a p w v =>
    simp only [PackageOp.run]
    cases hq : PackageRepository.GetByID s.packages id2 with
    | error e =>
      refine ⟨pkg, ?_, hdel, fun h => h⟩
      simp [PackageService.UpdatePackage, hq, hpkg]
    | ok oq =>
      cases oq with
      | none =>
        refine ⟨pkg, ?_, hdel, fun h => h⟩
        simp [PackageService.UpdatePackage, hq, hpkg]
      | some q =>
        have hqid : q.ID = id2 := PackageRepository.package_id_of_getByID hq
        rw [PackageService.updatePackage_ok clk s id2 t n a p w v q hq]
        by_cases hsame : id2 = id
        · subst hsame
          rw [hq] at hpkg
          cases hpkg
          exact ⟨_, PackageRepository.getByID_update (clk 1) s.packages id2 pkg _ hq hqid,
            hdel, fun h => h⟩
        · refine ⟨pkg, ?_, hdel, fun h => h⟩
          show PackageRepository.GetByID (PackageRepository.Update (clk 1) s.packages _) id = _
          rw [PackageRepository.getByID_update_other _ _ _ _ (by simpa [hqid] using hsame)]
          exact hpkg
  | markAsDelivered clk id2 =>
    simp only [PackageOp.run]
    cases hq : PackageRepository.GetByID s.packages id2 with
    | error e =>
      refine ⟨pkg, ?_, hdel, fun h => h⟩
      simp [PackageService.MarkAsDelivered, hq, hpkg]
    | ok oq =>
      cases oq with
      | none =>
        refine ⟨pkg, ?_, hdel, fun h => h⟩
        simp [PackageService.MarkAsDelivered, hq, hpkg]
      | some q =>
        have hqid : q.ID = id2 := PackageRepository.package_id_of_getByID hq
        rw [PackageService.markAsDelivered_ok clk s id2 q hq]
        by_cases hsame : id2 = id
        · subst hsame
          exact ⟨_, PackageRepository.getByID_update (clk 1) s.packages id2 q
            (q.MarkAsDelivered (clk 0)) hq hqid, rfl, fun _ => by simp [Package.MarkAsDelivered]⟩
        · refine ⟨pkg, ?_, hdel, fun h => h⟩
          show PackageRepository.GetByID (PackageRepository.Update (clk 1) s.packages _) id = _
          rw [PackageRepository.getByID_update_other _ _ _ _
            (by simpa [Package.MarkAsDelivered, hqid] using hsame)]
          exact hpkg
  | delete id2 =>
    simp only [PackageOp.run]
    cases hq : PackageRepository.GetByID s.packages id2 with
    | error e =>
      refine ⟨pkg, ?_, hdel, fun h => h⟩
      simp [PackageService.DeletePackage, hq, hpkg]
    | ok oq =>
      cases oq with
      | none =>
        refine ⟨pkg, ?_, hdel, fun h => h⟩
        simp [PackageService.DeletePackage, hq, hpkg]
      | some q =>
        cases hqd : q.Delivered with
        | true =>
          refine ⟨pkg, ?_, hdel, fun h => h⟩
          simp [PackageService.DeletePackage, hq, hqd, hpkg]
        | false =>
          have hne : id2 ≠ id := by
            intro hsame
            subst hsame
            rw [hq] at hpkg
            cases hpkg
            rw [hdel] at hqd
            cases hqd
          refine ⟨pkg, ?_, hdel, fun h => h⟩
          simp only [PackageService.DeletePackage, hq, hqd]
          show PackageRepository.GetByID (PackageRepository.Delete s.packages id2) id = _
          rw [PackageRepository.getByID_delete_other _ _ _ hne]
          exact hpkg

theorem PackageOp.runAll_keeps_delivered (ops : List PackageOp) :
    ∀ (s : Store) (id : ObjectID) (pkg : Package),
      PackageRepository.GetByID s.packages id = .ok (some pkg) → pkg.Delivered = true →
      ∃ pkg2, PackageRepository.GetByID (PackageOp.runAll s ops).packages id =
          .ok (some pkg2) ∧
        pkg2.Delivered = true ∧
        (pkg.DeliveryTimestamp ≠ none → pkg2.DeliveryTimestamp ≠ none) := by
  induction ops with
  | nil =>
    intro s id pkg hpkg hdel
    exact ⟨pkg, hpkg, hdel, fun h => h⟩
  | cons op ops ih =>
    intro s id pkg hpkg hdel
    obtain ⟨pkg1, h1, hd1, ht1⟩ := PackageOp.run_keeps_delivered op s id pkg hpkg hdel
    obtain ⟨pkg2, h2, hd2, ht2⟩ := ih (PackageOp.run s op) id pkg1 h1 hd1
    exact ⟨pkg2, h2, hd2, fun h => ht2 (ht1 h)⟩

/-! ## Lemmas on rejected and accepted status changes -/

theorem updateOne_split {α : Type} (p : α → Bool) (f : α → α) :
    ∀ (l : List α) (a : α), l.find? p = some a →
      ∃ l1 l2, l = l1 ++ a :: l2 ∧ (∀ x ∈ l1, p x = false) ∧
        updateOne p f l = l1 ++ f a :: l2 := by
  intro l
  induction l with
  | nil => intro a h; cases h
  | cons x xs ih =>
    intro a h
    by_cases hx : p x = true
    · rw [List.find?_cons_of_pos _ hx] at h
      cases h
      refine ⟨[], xs, rfl, ?_, ?_⟩
      · intro y hy; cases hy
      · simp [updateOne, hx]
    · have hx2 : p x = false := by simpa using hx
      rw [List.find?_cons_of_neg _ hx] at h
      obtain ⟨l1, l2, hsplit, hl1, hupd⟩ := ih a h
      refine ⟨x :: l1, l2, ?_, ?_, ?_⟩
      · rw [hsplit]; rfl
      · intro y hy
        rcases List.mem_cons.mp hy with rfl | hy
        · exact hx2
        · exact hl1 y hy
      · simp [updateOne, hx2, hupd]

theorem RouteRepository.route_getByID_cases (routes : List Route) (id : ObjectID) :
    (RouteRepository.GetByID routes id = .error Err.ErrNoDocuments ∧
      ∀ r ∈ routes, r.ID ≠ id) ∨
    ∃ r, RouteRepository.GetByID routes id = .ok (some r) := by
  unfold RouteRepository.GetByID
  cases h : routes.find? (fun x => x.ID == id) with
  | none =>
    left
    refine ⟨rfl, ?_⟩
    intro r hr
    have := List.find?_eq_none.mp h r hr
    simpa using this
  | some r => exact Or.inr ⟨r, rfl⟩

theorem RouteService.updateRouteStatus_inv {clk : Clock} {s : Store} {id : ObjectID}
    {status : RouteStatus}
    (hok : (RouteService.UpdateRouteStatus clk s id status).2 = none) :
    ∃ route, RouteRepository.GetByID s.routes id = .ok (some route) := by
  rcases RouteRepository.route_getByID_cases s.routes id with ⟨h, _⟩ | h
  · unfold RouteService.UpdateRouteStatus at hok
    simp only [h] at hok
    cases hok
  · exact h

theorem RouteService.updateRouteStatus_error {clk : Clock} {s : Store} {id : ObjectID}
    {status : RouteStatus} {e : Err}
    (herr : (RouteService.UpdateRouteStatus clk s id status).2 = some e) :
    (RouteService.UpdateRouteStatus clk s id status).1 = s := by
  unfold RouteService.UpdateRouteStatus at herr ⊢
  rcases RouteRepository.route_getByID_cases s.routes id with ⟨h, _⟩ | ⟨route, h⟩
  · simp only [h]
  · simp only [h] at herr ⊢
    split
    · rfl
    · rcases Route.updateStatus_cases route (clk 0) status with h2 | h2
      · rw [h2]
      · rename_i hguard
        rw [if_neg hguard, h2] at herr
        cases herr

/-! ## Lemmas on the methods of `Route` -/

theorem updateFirstAssignment_keys (now : Time) (packageID : ObjectID) (delivered : Bool) :
    ∀ l : List PackageRoute,
      (updateFirstAssignment now packageID delivered l).1.map
          (fun p => (p.PackageID, p.OrderInRoute)) =
        l.map (fun p => (p.PackageID, p.OrderInRoute)) := by
  intro l
  induction l with
  | nil => rfl
  | cons p ps ih =>
    by_cases hp : p.PackageID = packageID
    · simp [updateFirstAssignment, hp]
    · simp [updateFirstAssignment, hp, ih]

theorem Route.updatePackageStatus_keys (r : Route) (clk : Clock) (packageID : ObjectID)
    (delivered : Bool) :
    (r.UpdatePackageStatus clk packageID delivered).1.Packages.map
        (fun p => (p.PackageID, p.OrderInRoute)) =
      r.Packages.map (fun p => (p.PackageID, p.OrderInRoute)) := by
  have hkeys := updateFirstAssignment_keys (clk 0) packageID delivered r.Packages
  simp only [Route.UpdatePackageStatus]
  by_cases hfound : (updateFirstAssignment (clk 0) packageID delivered r.Packages).2 = true
  · rw [if_pos hfound]
    exact hkeys
  · rw [if_neg hfound]

theorem Route.updateStatus_packages (r : Route) (now : Time) (status : RouteStatus) :
    (r.UpdateStatus now status).1.Packages = r.Packages := by
  rcases Route.updateStatus_cases r now status with h | h <;> rw [h]

theorem RouteOp.run_keys (r : Route) (op : RouteOp) :
    (RouteOp.run r op).Packages.map (fun p => (p.PackageID, p.OrderInRoute)) =
      r.Packages.map (fun p => (p.PackageID, p.OrderInRoute)) ++
        (match RouteOp.added op with
         | some packageID => [(packageID, (r.Packages.length : Int) + 1)]
         | none => []) := by
  cases op with
  | addPackage clk packageID => simp [RouteOp.run, RouteOp.added, Route.AddPackage]
  | updatePackageStatus clk packageID delivered =>
    simp only [RouteOp.run, RouteOp.added, List.append_nil]
    exact Route.updatePackageStatus_keys r clk packageID delivered
  | updateStatus clk status =>
    simp only [RouteOp.run, RouteOp.added, List.append_nil, Route.updateStatus_packages]

theorem RouteOp.runAll_keys (ops : List RouteOp) :
    ∀ r : Route,
      (RouteOp.runAll r ops).Packages.map (fun p => p.PackageID) =
          r.Packages.map (fun p => p.PackageID) ++ ops.filterMap RouteOp.added ∧
      (RouteOp.runAll r ops).Packages.map (fun p => p.OrderInRoute) =
          r.Packages.map (fun p => p.OrderInRoute) ++
            (List.range' (r.Packages.length + 1) (ops.filterMap RouteOp.added).length).map
              (fun k : Nat => (k : Int)) := by
  induction ops with
  | nil => intro r; simp [RouteOp.runAll]
  | cons op ops ih =>
    intro r
    have hkeys := RouteOp.run_keys r op
    have hids := congrArg (List.map Prod.fst) hkeys
    have hords := congrArg (List.map Prod.snd) hkeys
    have hlen := congrArg List.length hkeys
    simp only [List.map_map, List.map_append, List.length_map, List.length_append] at hids hords hlen
    obtain ⟨ih1, ih2⟩ := ih (RouteOp.run r op)
    have hrun : RouteOp.runAll r (op :: ops) = RouteOp.runAll (RouteOp.run r op) ops := rfl
    rw [hrun, ih1, ih2]
    have hids2 : (RouteOp.run r op).Packages.map (fun p => p.PackageID) =
        r.Packages.map (fun p => p.PackageID) ++
          (match RouteOp.added op with
           | some packageID => [(packageID, (r.Packages.length : Int) + 1)]
           | none => []).map Prod.fst := hids
    have hords2 : (RouteOp.run r op).Packages.map (fun p => p.OrderInRoute) =
        r.Packages.map (fun p => p.OrderInRoute) ++
          (match RouteOp.added op with
           | some packageID => [(packageID, (r.Packages.length : Int) + 1)]
           | none => []).map Prod.snd := hords
    rw [hids2, hords2, hlen]
    cases hadd : RouteOp.added op with
    | none => simp [List.filterMap_cons, hadd]
    | some packageID =>
      simp [List.filterMap_cons, hadd, List.range'_succ]

theorem updateFirstAssignment_found (now : Time) (packageID : ObjectID) (delivered : Bool) :
    ∀ l : List PackageRoute,
      (updateFirstAssignment now packageID delivered l).2 = true ↔
        ∃ a ∈ l, a.PackageID = packageID := by
  intro l
  induction l with
  | nil => simp [updateFirstAssignment]
  | cons p ps ih =>
    by_cases hp : p.PackageID = packageID
    · simp [updateFirstAssignment, hp]
    · simp [updateFirstAssignment, hp, ih]

theorem updateFirstAssignment_split (now : Time) (packageID : ObjectID) (delivered : Bool)
    (a : PackageRoute) (rest : List PackageRoute) (ha : a.PackageID = packageID) :
    ∀ before : List PackageRoute, (∀ x ∈ before, x.PackageID ≠ packageID) →
      updateFirstAssignment now packageID delivered (before ++ a :: rest) =
        (before ++ { a with Delivered := delivered
                            DeliveryTimestamp := if delivered then some now else none } ::
          rest, true) := by
  intro before
  induction before with
  | nil => intro _; simp [updateFirstAssignment, ha]
  | cons x xs ih =>
    intro hxs
    have hx : x.PackageID ≠ packageID := hxs x (List.mem_cons_self x xs)
    have hrest := ih (fun y hy => hxs y (List.mem_cons_of_mem x hy))
    simp [updateFirstAssignment, hx, hrest]

/-! ## Lemmas on what the route operations write to packages -/

theorem updateOne_map_eq {α β : Type} (g : α → β) (p : α → Bool) (f : α → α)
    (hf : ∀ x, g (f x) = g x) : ∀ l : List α, (updateOne p f l).map g = l.map g := by
  intro l
  induction l with
  | nil => rfl
  | cons x xs ih =>
    by_cases hx : p x = true
    · simp [updateOne, hx, hf]
    · simp [updateOne, hx, ih]

theorem PackageRepository.updateStatus_pkg (packages : List PackageDoc) (id : ObjectID)
    (status : PackageStatus) :
    (PackageRepository.UpdateStatus packages id status).map (fun d => d.pkg) =
      packages.map (fun d => d.pkg) := by
  unfold PackageRepository.UpdateStatus
  exact updateOne_map_eq (fun d : PackageDoc => d.pkg) (fun d => d.pkg.ID == id)
    (fun d => { d with status := some status }) (fun _ => rfl) packages

theorem RouteService.cascade_pkg (status : PackageStatus) (ps : List PackageRoute) :
    ∀ packages : List PackageDoc,
      (RouteService.cascade status ps packages).map (fun d => d.pkg) =
        packages.map (fun d => d.pkg) := by
  induction ps with
  | nil => intro packages; rfl
  | cons p ps ih =>
    intro packages
    simp only [RouteService.cascade]
    rw [ih, PackageRepository.updateStatus_pkg]

theorem PackageRepository.getByID_congr {l1 l2 : List PackageDoc}
    (h : l1.map (fun d => d.pkg) = l2.map (fun d => d.pkg)) (id : ObjectID) :
    PackageRepository.GetByID l1 id = PackageRepository.GetByID l2 id := by
  have hfind : ∀ l : List PackageDoc,
      (l.find? (fun d => d.pkg.ID == id)).map (fun d => d.pkg) =
        (l.map (fun d => d.pkg)).find? (fun p => p.ID == id) := by
    intro l
    induction l with
    | nil => rfl
    | cons x xs ih =>
      by_cases hx : x.pkg.ID = id
      · simp [List.find?_cons, hx]
      · simp [List.find?_cons, hx, ih]
  have h1 := hfind l1
  have h2 := hfind l2
  rw [h] at h1
  rw [← h2] at h1
  unfold PackageRepository.GetByID
  cases hl1 : l1.find? (fun d => d.pkg.ID == id) with
  | none =>
    cases hl2 : l2.find? (fun d => d.pkg.ID == id) with
    | none => rfl
    | some d2 => rw [hl1, hl2] at h1; cases h1
  | some d1 =>
    cases hl2 : l2.find? (fun d => d.pkg.ID == id) with
    | none => rw [hl1, hl2] at h1; cases h1
    | some d2 =>
      rw [hl1, hl2] at h1
      simp only [Option.map_some', Option.some.injEq] at h1
      simp only [h1]

theorem RouteService.updateRouteStatus_pkg (clk : Clock) (s : Store) (id : ObjectID)
    (status : RouteStatus) :
    (RouteService.UpdateRouteStatus clk s id status).1.packages.map (fun d => d.pkg) =
      s.packages.map (fun d => d.pkg) := by
  cases hres : (RouteService.UpdateRouteStatus clk s id status).2 with
  | some e => rw [RouteService.updateRouteStatus_error hres]
  | none =>
    obtain ⟨route, hroute⟩ := RouteService.updateRouteStatus_inv hres
    rw [RouteService.updateRouteStatus_ok hroute hres]
    simp only
    split
    · exact RouteService.cascade_pkg _ _ _
    · split
      · exact RouteService.cascade_pkg _ _ _
      · rfl

theorem RouteService.updatePackageDeliveryStatus_pkg (clk : Clock) (s : Store)
    (routeID packageID : ObjectID) (delivered : Bool) :
    (RouteService.UpdatePackageDeliveryStatus clk s routeID packageID
        delivered).1.packages.map (fun d => d.pkg) =
      s.packages.map (fun d => d.pkg) := by
  unfold RouteService.UpdatePackageDeliveryStatus
  rcases RouteRepository.route_getByID_cases s.routes routeID with ⟨h, _⟩ | ⟨route, h⟩
  · simp only [h]
  · simp only [h]
    split
    · rfl
    · exact PackageRepository.updateStatus_pkg _ _ _

theorem RouteService.updatePackageDeliveryStatus_routes (clk : Clock) (s : Store)
    (routeID packageID : ObjectID) (delivered : Bool) :
    (RouteService.UpdatePackageDeliveryStatus clk s routeID packageID delivered).1.routes =
      s.routes ∧
    (RouteService.UpdatePackageDeliveryStatus clk s routeID packageID delivered).1.drivers =
      s.drivers := by
  unfold RouteService.UpdatePackageDeliveryStatus
  rcases RouteRepository.route_getByID_cases s.routes routeID with ⟨h, _⟩ | ⟨route, h⟩
  · simp only [h, and_self]
  · simp only [h]
    split
    · exact ⟨rfl, rfl⟩
    · exact ⟨RouteRepository.updatePackageStatus_eq _ _ _ _ _, rfl⟩

/-! ## Lemmas on the wire conversions -/

theorem convertPackages_eq_none_iff :
    ∀ l : List PackageRoute,
      convertPackages l = none ↔ ∃ p ∈ l, p.DeliveryTimestamp = none := by
  intro l
  induction l with
  | nil => simp [convertPackages]
  | cons p ps ih =>
    cases ht : p.DeliveryTimestamp with
    | none => simp [convertPackages, ht]
    | some t =>
      cases hrest : convertPackages ps with
      | none =>
        have := ih.mp hrest
        simp [convertPackages, ht, hrest, this]
      | some rest =>
        have hno : ¬ ∃ q ∈ ps, q.DeliveryTimestamp = none := by
          intro h
          have := ih.mpr h
          rw [hrest] at this
          cases this
        have hno2 : ∀ q ∈ ps, ¬ q.DeliveryTimestamp = none := by
          intro q hq hnone
          exact hno ⟨q, hq, hnone⟩
        simp only [convertPackages, ht, hrest, List.mem_cons, exists_eq_or_imp,
          reduceCtorEq, false_or, false_iff, not_exists, not_and]
        exact hno2

/-! ## Lemmas on the document written by `PackageRepository.Update` -/

theorem PackageRepository.find_update (now : Time) (packages : List PackageDoc)
    (id : ObjectID) (old new : Package)
    (hold : PackageRepository.GetByID packages id = .ok (some old))
    (hid : new.ID = id) :
    (PackageRepository.Update now packages new).find? (fun d => d.pkg.ID == id) =
      some { pkg := { new with UpdatedAt := now }, status := none } := by
  subst hid
  obtain ⟨d, hd, _⟩ := PackageRepository.find_of_package_getByID hold
  have h := find?_updateOne_self (fun x : PackageDoc => x.pkg.ID == new.ID)
    (fun _ => ({ pkg := { new with UpdatedAt := now }, status := none } : PackageDoc))
    packages (by intro x _; simp)
  unfold PackageRepository.Update
  simp only [h, hd, Option.map_some']

/-! ## The claims -/

/-- C1: for a stored route in status pending and package ids that all resolve to
stored undelivered packages, `AddPackagesToRoute` returns no error and the stored
route's assignment list afterwards is the previous list followed by one new assignment
per input id, in input order, each with `Delivered = false` and `OrderInRoute` equal to
the previous length plus 1, 2, ...; the list grows by exactly the number of ids. -/
theorem addPackagesToRoute_appends_in_order (clk : Clock) (s : Store) (routeID : ObjectID)
    (packageIDs : List ObjectID) (route : Route)
    (hroute : RouteRepository.GetByID s.routes routeID = .ok (some route))
    (hpending : route.Status = RouteStatusPending)
    (hpkgs : ∀ id ∈ packageIDs, ∃ pkg,
      PackageRepository.GetByID s.packages id = .ok (some pkg) ∧ pkg.Delivered = false) :
    (RouteService.AddPackagesToRoute clk s routeID packageIDs).2 = none ∧
    ∃ stored,
      RouteRepository.GetByID
        (RouteService.AddPackagesToRoute clk s routeID packageIDs).1.routes routeID =
          .ok (some stored) ∧
      stored.Packages = route.Packages ++
        (packageIDs.enumFrom route.Packages.length).map
          (fun p => { PackageID := p.2, OrderInRoute := (p.1 : Int) + 1,
                      Delivered := false, DeliveryTimestamp := none }) ∧
      stored.Packages.length = route.Packages.length + packageIDs.length := by
  obtain ⟨pkgs, hget, hmap⟩ := RouteService.getPackages_ok s.packages packageIDs hpkgs
  obtain ⟨hok, _, _, hstored⟩ :=
    RouteService.addPackagesToRoute_ok clk s routeID packageIDs route pkgs hroute hpending hget
  refine ⟨hok, _, hstored, ?_, ?_⟩
  · simp [RouteService.addPackages_packages, hmap]
  · simp [RouteService.addPackages_packages, hmap]

/-- C1 at a route that already holds package 7, adding 8 and 7 again. -/
theorem addPackagesToRoute_appends_in_order_witness :
    (RouteService.AddPackagesToRoute sampleClock
        (sampleStore RouteStatusPending [sampleAssignment 7 1]) 1 [8, 7]).2 = none ∧
    ∃ stored,
      RouteRepository.GetByID
        (RouteService.AddPackagesToRoute sampleClock
          (sampleStore RouteStatusPending [sampleAssignment 7 1]) 1 [8, 7]).1.routes 1 =
          .ok (some stored) ∧
      stored.Packages = [sampleAssignment 7 1] ++
        [sampleAssignment 8 2, sampleAssignment 7 3] ∧
      stored.Packages.length = 1 + 2 :=
  addPackagesToRoute_appends_in_order sampleClock
    (sampleStore RouteStatusPending [sampleAssignment 7 1]) 1 [8, 7]
    (sampleRoute RouteStatusPending [sampleAssignment 7 1]) (by rfl) (by rfl)
    (by
      intro id hid
      simp only [List.mem_cons, List.mem_singleton, List.not_mem_nil, or_false] at hid
      rcases hid with h | h
      · subst h; exact ⟨(samplePackage 8 false).pkg, by rfl, by rfl⟩
      · subst h; exact ⟨(samplePackage 7 false).pkg, by rfl, by rfl⟩)

/-- C2, what the code stores: after a successful `AddPackagesToRoute` the stored
distance is `float64(m) * 5.0` for the number `m` of ids passed to this call, whatever
the route held before, while the stored route holds the previous assignments and the
`m` new ones. -/
theorem addPackagesToRoute_distance_counts_added_only (clk : Clock) (s : Store)
    (routeID : ObjectID) (packageIDs : List ObjectID) (route : Route)
    (hroute : RouteRepository.GetByID s.routes routeID = .ok (some route))
    (hok : (RouteService.AddPackagesToRoute clk s routeID packageIDs).2 = none) :
    ∃ stored,
      RouteRepository.GetByID
        (RouteService.AddPackagesToRoute clk s routeID packageIDs).1.routes routeID =
          .ok (some stored) ∧
      stored.Packages.length = route.Packages.length + packageIDs.length ∧
      stored.EstimatedDistanceKm =
        Float64.mul (Float64.ofInt (packageIDs.length : Int)) (Float64.ofInt 5) := by
  obtain ⟨route2, pkgs, hroute2, hpending, hget⟩ := RouteService.addPackagesToRoute_inv hok
  rw [hroute] at hroute2
  cases hroute2
  obtain ⟨_, _, _, hstored⟩ :=
    RouteService.addPackagesToRoute_ok clk s routeID packageIDs route pkgs hroute hpending hget
  have hlen := RouteService.getPackages_length hget
  refine ⟨_, hstored, ?_, ?_⟩
  · simp [RouteService.addPackages_packages, hlen]
  · simp [calculateEstimatedDistance, hlen]

set_option maxRecDepth 100000 in
/-- C2 at the failing input: the route holds package 7 and the call adds package 8;
the stored route then has two assignments and the distance 5.0, not 10.0. -/
theorem addPackagesToRoute_distance_counts_added_only_witness :
    ∃ stored,
      RouteRepository.GetByID
        (RouteService.AddPackagesToRoute sampleClock
          (sampleStore RouteStatusPending [sampleAssignment 7 1]) 1 [8]).1.routes 1 =
          .ok (some stored) ∧
      stored.Packages.length = 2 ∧
      stored.EstimatedDistanceKm = Float64.ofInt 5 ∧
      stored.EstimatedDistanceKm ≠ Float64.ofInt 10 := by
  obtain ⟨stored, h1, h2, h3⟩ :=
    addPackagesToRoute_distance_counts_added_only sampleClock
      (sampleStore RouteStatusPending [sampleAssignment 7 1]) 1 [8]
      (sampleRoute RouteStatusPending [sampleAssignment 7 1]) (by rfl) (by rfl)
  refine ⟨stored, h1, h2, ?_, ?_⟩
  · rw [h3]; decide
  · rw [h3]; decide

/-- C4: for a stored pending route and a list of ids in which some id is absent from
the package store or resolves to a delivered package, `AddPackagesToRoute` returns an
error and the store after the call is the store before it, wherever the bad id
stands in the list. -/
theorem addPackagesToRoute_bad_id_leaves_store (clk : Clock) (s : Store)
    (routeID : ObjectID) (packageIDs : List ObjectID) (route : Route)
    (hroute : RouteRepository.GetByID s.routes routeID = .ok (some route))
    (hpending : route.Status = RouteStatusPending)
    (hbad : ∃ id ∈ packageIDs,
      PackageRepository.GetByID s.packages id = .error Err.ErrNoDocuments ∨
      ∃ pkg, PackageRepository.GetByID s.packages id = .ok (some pkg) ∧
        pkg.Delivered = true) :
    (∃ e, (RouteService.AddPackagesToRoute clk s routeID packageIDs).2 = some e) ∧
    (RouteService.AddPackagesToRoute clk s routeID packageIDs).1 = s := by
  have hbad2 : ∃ id ∈ packageIDs, ∀ pkg,
      PackageRepository.GetByID s.packages id = .ok (some pkg) → pkg.Delivered = true := by
    obtain ⟨id, hid, h⟩ := hbad
    refine ⟨id, hid, fun pkg hpkg => ?_⟩
    rcases h with h | ⟨pkg2, h, hdel⟩
    · rw [h] at hpkg; cases hpkg
    · rw [h] at hpkg; cases hpkg; exact hdel
  obtain ⟨e, he⟩ := RouteService.getPackages_error s.packages packageIDs hbad2
  have hres : RouteService.AddPackagesToRoute clk s routeID packageIDs = (s, some e) := by
    simp [RouteService.AddPackagesToRoute, hroute, hpending, he]
  rw [hres]
  exact ⟨⟨e, rfl⟩, rfl⟩

/-- C4 with the delivered package 9 last in the list and the absent package 4 in the
middle of it. -/
theorem addPackagesToRoute_bad_id_leaves_store_witness :
    ((∃ e, (RouteService.AddPackagesToRoute sampleClock
        (sampleStore RouteStatusPending [sampleAssignment 7 1]) 1 [7, 8, 9]).2 = some e) ∧
      (RouteService.AddPackagesToRoute sampleClock
        (sampleStore RouteStatusPending [sampleAssignment 7 1]) 1 [7, 8, 9]).1 =
        sampleStore RouteStatusPending [sampleAssignment 7 1]) ∧
    ((∃ e, (RouteService.AddPackagesToRoute sampleClock
        (sampleStore RouteStatusPending [sampleAssignment 7 1]) 1 [7, 4, 8]).2 = some e) ∧
      (RouteService.AddPackagesToRoute sampleClock
        (sampleStore RouteStatusPending [sampleAssignment 7 1]) 1 [7, 4, 8]).1 =
        sampleStore RouteStatusPending [sampleAssignment 7 1]) :=
  ⟨addPackagesToRoute_bad_id_leaves_store sampleClock
      (sampleStore RouteStatusPending [sampleAssignment 7 1]) 1 [7, 8, 9]
      (sampleRoute RouteStatusPending [sampleAssignment 7 1]) (by rfl) (by rfl)
      ⟨9, by decide, Or.inr ⟨(samplePackage 9 true).pkg, by rfl, by rfl⟩⟩,
   addPackagesToRoute_bad_id_leaves_store sampleClock
      (sampleStore RouteStatusPending [sampleAssignment 7 1]) 1 [7, 4, 8]
      (sampleRoute RouteStatusPending [sampleAssignment 7 1]) (by rfl) (by rfl)
      ⟨4, by decide, Or.inl (by rfl)⟩⟩

/-- C5: for a stored route whose status is not pending, whatever that status is, and
any list of ids, `AddPackagesToRoute` returns the error "can only add packages to
pending routes" and the store after the call is the store before it. -/
theorem addPackagesToRoute_requires_pending (clk : Clock) (s : Store) (routeID : ObjectID)
    (packageIDs : List ObjectID) (route : Route)
    (hroute : RouteRepository.GetByID s.routes routeID = .ok (some route))
    (hstatus : route.Status ≠ RouteStatusPending) :
    (RouteService.AddPackagesToRoute clk s routeID packageIDs).2 =
      some (Err.errorf "can only add packages to pending routes") ∧
    (RouteService.AddPackagesToRoute clk s routeID packageIDs).1 = s := by
  have hres : RouteService.AddPackagesToRoute clk s routeID packageIDs =
      (s, some (Err.errorf "can only add packages to pending routes")) := by
    simp [RouteService.AddPackagesToRoute, hroute, hstatus]
  rw [hres]
  exact ⟨rfl, rfl⟩

/-- C5 at an active route and at a route whose status is none of the four constants. -/
theorem addPackagesToRoute_requires_pending_witness :
    ((RouteService.AddPackagesToRoute sampleClock
        (sampleStore RouteStatusActive [sampleAssignment 7 1]) 1 [8]).2 =
        some (Err.errorf "can only add packages to pending routes") ∧
      (RouteService.AddPackagesToRoute sampleClock
        (sampleStore RouteStatusActive [sampleAssignment 7 1]) 1 [8]).1 =
        sampleStore RouteStatusActive [sampleAssignment 7 1]) ∧
    ((RouteService.AddPackagesToRoute sampleClock (sampleStore "paused" []) 1 [8]).2 =
        some (Err.errorf "can only add packages to pending routes") ∧
      (RouteService.AddPackagesToRoute sampleClock (sampleStore "paused" []) 1 [8]).1 =
        sampleStore "paused" []) :=
  ⟨addPackagesToRoute_requires_pending sampleClock
      (sampleStore RouteStatusActive [sampleAssignment 7 1]) 1 [8]
      (sampleRoute RouteStatusActive [sampleAssignment 7 1]) (by rfl) (by decide),
   addPackagesToRoute_requires_pending sampleClock (sampleStore "paused" []) 1 [8]
      (sampleRoute "paused" []) (by rfl) (by decide)⟩

/-- C6: for a stored route (in particular one that is not yet completed),
`UpdateRouteStatus` to completed returns `ErrRouteHasPendingPackages` if and only if
some assignment of the route has `Delivered = false`, and returns no error when every
assignment is delivered (so also for a route without assignments); and
`Route.UpdateStatus` leaves its receiver, the status included, as it was whenever it
returns that error. -/
theorem updateRouteStatus_completed_pending_iff (clk : Clock) (s : Store) (id : ObjectID)
    (route : Route) (hroute : RouteRepository.GetByID s.routes id = .ok (some route)) :
    ((RouteService.UpdateRouteStatus clk s id RouteStatusCompleted).2 =
        some Err.ErrRouteHasPendingPackages ↔ ∃ p ∈ route.Packages, p.Delivered = false) ∧
    ((∀ p ∈ route.Packages, p.Delivered = true) →
      (RouteService.UpdateRouteStatus clk s id RouteStatusCompleted).2 = none) ∧
    (∀ (r : Route) (now : Time) (status : RouteStatus),
      (r.UpdateStatus now status).2 = some Err.ErrRouteHasPendingPackages →
        (r.UpdateStatus now status).1 = r ∧ (r.UpdateStatus now status).1.Status = r.Status) := by
  have hres : (RouteService.UpdateRouteStatus clk s id RouteStatusCompleted).2 =
      (route.UpdateStatus (clk 0) RouteStatusCompleted).2 := by
    unfold RouteService.UpdateRouteStatus
    simp only [hroute, ne_eq, not_true_eq_false, and_false, if_false]
    rcases Route.updateStatus_cases route (clk 0) RouteStatusCompleted with h | h <;> rw [h]
  refine ⟨?_, ?_, ?_⟩
  · rw [hres, Route.updateStatus_error_iff]
    simp
  · intro hall
    rw [hres]
    rcases Route.updateStatus_cases route (clk 0) RouteStatusCompleted with h | h
    · have h2 : (route.UpdateStatus (clk 0) RouteStatusCompleted).2 =
          some Err.ErrRouteHasPendingPackages := by rw [h]
      obtain ⟨_, p, hp, hpd⟩ := (Route.updateStatus_error_iff _ _ _).mp h2
      rw [hall p hp] at hpd
      cases hpd
    · rw [h]
  · intro r now status herr
    rcases Route.updateStatus_cases r now status with h | h
    · rw [h]; exact ⟨rfl, rfl⟩
    · rw [h] at herr; cases herr

/-- C6 at an active route holding the undelivered package 7. -/
theorem updateRouteStatus_completed_pending_iff_witness :
    ((RouteService.UpdateRouteStatus sampleClock
        (sampleStore RouteStatusActive [sampleAssignment 7 1]) 1 RouteStatusCompleted).2 =
        some Err.ErrRouteHasPendingPackages ↔
      ∃ p ∈ [sampleAssignment 7 1], p.Delivered = false) ∧
    ((∀ p ∈ [sampleAssignment 7 1], p.Delivered = true) →
      (RouteService.UpdateRouteStatus sampleClock
        (sampleStore RouteStatusActive [sampleAssignment 7 1]) 1 RouteStatusCompleted).2 =
        none) ∧
    (∀ (r : Route) (now : Time) (status : RouteStatus),
      (r.UpdateStatus now status).2 = some Err.ErrRouteHasPendingPackages →
        (r.UpdateStatus now status).1 = r ∧ (r.UpdateStatus now status).1.Status = r.Status) :=
  updateRouteStatus_completed_pending_iff sampleClock
    (sampleStore RouteStatusActive [sampleAssignment 7 1]) 1
    (sampleRoute RouteStatusActive [sampleAssignment 7 1]) (by rfl)

/-- C7: for a stored route whose status is completed and any status `x` other than
completed, `UpdateRouteStatus` returns the error "cannot change status of a completed
route", writes nothing, and the stored status is still completed. -/
theorem updateRouteStatus_completed_is_final (clk : Clock) (s : Store) (id : ObjectID)
    (route : Route) (x : RouteStatus)
    (hroute : RouteRepository.GetByID s.routes id = .ok (some route))
    (hcompleted : route.Status = RouteStatusCompleted) (hx : x ≠ RouteStatusCompleted) :
    (RouteService.UpdateRouteStatus clk s id x).2 =
      some (Err.errorf "cannot change status of a completed route") ∧
    (RouteService.UpdateRouteStatus clk s id x).1 = s ∧
    ∃ stored,
      RouteRepository.GetByID (RouteService.UpdateRouteStatus clk s id x).1.routes id =
        .ok (some stored) ∧
      stored.Status = RouteStatusCompleted := by
  have hres : RouteService.UpdateRouteStatus clk s id x =
      (s, some (Err.errorf "cannot change status of a completed route")) := by
    simp [RouteService.UpdateRouteStatus, hroute, hcompleted, hx]
  rw [hres]
  exact ⟨rfl, rfl, route, hroute, hcompleted⟩

/-- C7 at a completed route, asked to become active again. -/
theorem updateRouteStatus_completed_is_final_witness :
    (RouteService.UpdateRouteStatus sampleClock (sampleStore RouteStatusCompleted []) 1
        RouteStatusActive).2 =
      some (Err.errorf "cannot change status of a completed route") ∧
    (RouteService.UpdateRouteStatus sampleClock (sampleStore RouteStatusCompleted []) 1
        RouteStatusActive).1 = sampleStore RouteStatusCompleted [] ∧
    ∃ stored,
      RouteRepository.GetByID
        (RouteService.UpdateRouteStatus sampleClock (sampleStore RouteStatusCompleted []) 1
          RouteStatusActive).1.routes 1 = .ok (some stored) ∧
      stored.Status = RouteStatusCompleted :=
  updateRouteStatus_completed_is_final sampleClock (sampleStore RouteStatusCompleted []) 1
    (sampleRoute RouteStatusCompleted []) RouteStatusActive (by rfl) (by rfl) (by decide)

/-- C8 at the failing input: an active route holds the undelivered package 7, so
`UpdateRouteStatus` refuses to complete it; the RPC operation `MarkRouteAsCompleted`
nevertheless stores the route with status completed and the assignment still
undelivered. -/
theorem markRouteAsCompleted_skips_delivery_check :
    (RouteService.UpdateRouteStatus sampleClock
        (sampleStore RouteStatusActive [sampleAssignment 7 1]) 1 RouteStatusCompleted).2 =
      some Err.ErrRouteHasPendingPackages ∧
    ∃ stored,
      RouteRepository.GetByID
        (GrpcRouteService.MarkRouteAsCompleted sampleClock
          (sampleStore RouteStatusActive [sampleAssignment 7 1]) 1).store.routes 1 =
        .ok (some stored) ∧
      stored.Status = RouteStatusCompleted ∧
      stored.Packages = [sampleAssignment 7 1] ∧
      ∃ p ∈ stored.Packages, p.Delivered = false :=
  ⟨by rfl, _, by rfl, by rfl, by rfl, sampleAssignment 7 1, by decide, by rfl⟩

/-- C9: when `UpdateRouteStatus` on a stored route succeeds with status active, every
assignment of the route whose package is stored has that package's persisted status
equal to "assigned" afterwards, and when it succeeds with status completed, equal to
"delivered". -/
theorem updateRouteStatus_cascades (clk : Clock) (s : Store) (id : ObjectID)
    (status : RouteStatus) (route : Route)
    (hroute : RouteRepository.GetByID s.routes id = .ok (some route))
    (hok : (RouteService.UpdateRouteStatus clk s id status).2 = none) :
    (status = RouteStatusActive →
      ∀ a ∈ route.Packages, ∀ pkg,
        PackageRepository.GetByID s.packages a.PackageID = .ok (some pkg) →
        Store.persistedStatus (RouteService.UpdateRouteStatus clk s id status).1
          a.PackageID = some (some PackageStatusAssigned)) ∧
    (status = RouteStatusCompleted →
      ∀ a ∈ route.Packages, ∀ pkg,
        PackageRepository.GetByID s.packages a.PackageID = .ok (some pkg) →
        Store.persistedStatus (RouteService.UpdateRouteStatus clk s id status).1
          a.PackageID = some (some PackageStatusDelivered)) := by
  have hfound : ∀ (i : ObjectID) (pkg : Package),
      PackageRepository.GetByID s.packages i = .ok (some pkg) →
      ∃ d, s.packages.find? (fun d => d.pkg.ID == i) = some d := by
    intro i pkg h
    unfold PackageRepository.GetByID at h
    split at h
    · cases h
    · rename_i d hd
      exact ⟨d, hd⟩
  rw [RouteService.updateRouteStatus_ok hroute hok]
  constructor
  · intro hs a ha pkg hpkg
    obtain ⟨d, hd⟩ := hfound _ _ hpkg
    have hex : ∃ p ∈ route.Packages, p.PackageID = a.PackageID := ⟨a, ha, rfl⟩
    simp only [Store.persistedStatus, hs, if_true, RouteService.find_cascade, hd,
      Option.map_some', if_pos hex]
  · intro hs a ha pkg hpkg
    obtain ⟨d, hd⟩ := hfound _ _ hpkg
    have hex : ∃ p ∈ route.Packages, p.PackageID = a.PackageID := ⟨a, ha, rfl⟩
    have hne : RouteStatusCompleted ≠ RouteStatusActive := by decide
    simp only [Store.persistedStatus, hs, if_true, if_neg hne, RouteService.find_cascade, hd,
      Option.map_some', if_pos hex]

/-- C9 at a pending route holding packages 7 and 8, made active, and at an active
route holding the delivered package 8, made completed. -/
theorem updateRouteStatus_cascades_witness :
    (∀ a ∈ [sampleAssignment 7 1, sampleAssignment 8 2], ∀ pkg,
        PackageRepository.GetByID
          (sampleStore RouteStatusPending
            [sampleAssignment 7 1, sampleAssignment 8 2]).packages a.PackageID =
          .ok (some pkg) →
        Store.persistedStatus
          (RouteService.UpdateRouteStatus sampleClock
            (sampleStore RouteStatusPending [sampleAssignment 7 1, sampleAssignment 8 2]) 1
            RouteStatusActive).1 a.PackageID = some (some PackageStatusAssigned)) ∧
    (∀ a ∈ [deliveredAssignment 8 1], ∀ pkg,
        PackageRepository.GetByID
          (sampleStore RouteStatusActive [deliveredAssignment 8 1]).packages a.PackageID =
          .ok (some pkg) →
        Store.persistedStatus
          (RouteService.UpdateRouteStatus sampleClock
            (sampleStore RouteStatusActive [deliveredAssignment 8 1]) 1
            RouteStatusCompleted).1 a.PackageID = some (some PackageStatusDelivered)) :=
  ⟨(updateRouteStatus_cascades sampleClock
      (sampleStore RouteStatusPending [sampleAssignment 7 1, sampleAssignment 8 2]) 1
      RouteStatusActive
      (sampleRoute RouteStatusPending [sampleAssignment 7 1, sampleAssignment 8 2])
      (by rfl) (by rfl)).1 rfl,
   (updateRouteStatus_cascades sampleClock
      (sampleStore RouteStatusActive [deliveredAssignment 8 1]) 1
      RouteStatusCompleted (sampleRoute RouteStatusActive [deliveredAssignment 8 1])
      (by rfl) (by rfl)).2 rfl⟩

/-- C10 at the failing input: an active route holds package 7, undelivered;
`UpdatePackageDeliveryStatus` for package 7 with `delivered = true` returns no error
and the stored assignment still has `Delivered = false`: the stored routes are
those from before the call. -/
theorem updatePackageDeliveryStatus_leaves_assignment :
    (RouteService.UpdatePackageDeliveryStatus sampleClock
        (sampleStore RouteStatusActive [sampleAssignment 7 1]) 1 7 true).2 = none ∧
    (RouteService.UpdatePackageDeliveryStatus sampleClock
        (sampleStore RouteStatusActive [sampleAssignment 7 1]) 1 7 true).1.routes =
      (sampleStore RouteStatusActive [sampleAssignment 7 1]).routes ∧
    ∃ stored,
      RouteRepository.GetByID
        (RouteService.UpdatePackageDeliveryStatus sampleClock
          (sampleStore RouteStatusActive [sampleAssignment 7 1]) 1 7 true).1.routes 1 =
        .ok (some stored) ∧
      stored.Packages =
        [{ PackageID := 7, OrderInRoute := 1, Delivered := false,
           DeliveryTimestamp := none }] :=
  ⟨by rfl, by rfl, _, by rfl, by rfl⟩

set_option maxRecDepth 100000 in
/-- C11 evaluated on the code: the first four steps of the scenario behave as stated
(one assignment with order 1, distance 5.0, time 6; activation succeeds; the first
completion fails with the pending-packages error; the delivery report returns no
error), but the delivery report leaves the assignment undelivered, so the last
`UpdateRouteStatus` to completed fails again with `ErrRouteHasPendingPackages` and the
stored route stays active, while the persisted status of package 7 is "delivered". -/
theorem scenario_final_completion_refused :
    scenarioAdded.2 = none ∧
    RouteRepository.GetByID scenarioAdded.1.routes 1 =
      .ok (some { sampleRoute RouteStatusPending [] with
        Packages := [{ PackageID := 7, OrderInRoute := 1, Delivered := false,
                       DeliveryTimestamp := none }]
        EstimatedDistanceKm := Float64.ofInt 5
        EstimatedTimeMin := 6
        UpdatedAt := 101 }) ∧
    scenarioActivated.2 = none ∧
    Store.persistedStatus scenarioActivated.1 7 = some (some PackageStatusAssigned) ∧
    scenarioRefused.2 = some Err.ErrRouteHasPendingPackages ∧
    scenarioDelivered.2 = none ∧
    scenarioCompleted.2 = some Err.ErrRouteHasPendingPackages ∧
    (∃ stored, RouteRepository.GetByID scenarioCompleted.1.routes 1 = .ok (some stored) ∧
      stored.Status = RouteStatusActive ∧
      stored.Packages = [{ PackageID := 7, OrderInRoute := 1, Delivered := false,
                           DeliveryTimestamp := none }]) ∧
    Store.persistedStatus scenarioCompleted.1 7 = some (some PackageStatusDelivered) := by
  refine ⟨by rfl, by rfl, by rfl, by rfl, by rfl, by rfl, by rfl, ⟨_, by rfl, by rfl, by rfl⟩,
    by rfl⟩

/-- C12: for a stored route whose status is not active, and any package id and flag,
`UpdatePackageDeliveryStatus` returns the error "can only update package status for
routes in progress" and writes nothing: the store after the call is the store before
it. -/
theorem updatePackageDeliveryStatus_requires_active (clk : Clock) (s : Store)
    (routeID packageID : ObjectID) (delivered : Bool) (route : Route)
    (hroute : RouteRepository.GetByID s.routes routeID = .ok (some route))
    (hstatus : route.Status ≠ RouteStatusActive) :
    (RouteService.UpdatePackageDeliveryStatus clk s routeID packageID delivered).2 =
      some (Err.errorf "can only update package status for routes in progress") ∧
    (RouteService.UpdatePackageDeliveryStatus clk s routeID packageID delivered).1 = s := by
  have hres : RouteService.UpdatePackageDeliveryStatus clk s routeID packageID delivered =
      (s, some (Err.errorf "can only update package status for routes in progress")) := by
    simp [RouteService.UpdatePackageDeliveryStatus, hroute, hstatus]
  rw [hres]
  exact ⟨rfl, rfl⟩

/-- C12 at a pending route holding package 7 and at a completed route. -/
theorem updatePackageDeliveryStatus_requires_active_witness :
    ((RouteService.UpdatePackageDeliveryStatus sampleClock
        (sampleStore RouteStatusPending [sampleAssignment 7 1]) 1 7 true).2 =
        some (Err.errorf "can only update package status for routes in progress") ∧
      (RouteService.UpdatePackageDeliveryStatus sampleClock
        (sampleStore RouteStatusPending [sampleAssignment 7 1]) 1 7 true).1 =
        sampleStore RouteStatusPending [sampleAssignment 7 1]) ∧
    ((RouteService.UpdatePackageDeliveryStatus sampleClock
        (sampleStore RouteStatusCompleted [deliveredAssignment 7 1]) 1 7 false).2 =
        some (Err.errorf "can only update package status for routes in progress") ∧
      (RouteService.UpdatePackageDeliveryStatus sampleClock
        (sampleStore RouteStatusCompleted [deliveredAssignment 7 1]) 1 7 false).1 =
        sampleStore RouteStatusCompleted [deliveredAssignment 7 1]) :=
  ⟨updatePackageDeliveryStatus_requires_active sampleClock
      (sampleStore RouteStatusPending [sampleAssignment 7 1]) 1 7 true
      (sampleRoute RouteStatusPending [sampleAssignment 7 1]) (by rfl) (by decide),
   updatePackageDeliveryStatus_requires_active sampleClock
      (sampleStore RouteStatusCompleted [deliveredAssignment 7 1]) 1 7 false
      (sampleRoute RouteStatusCompleted [deliveredAssignment 7 1]) (by rfl) (by decide)⟩

/-- C13: `DeleteDriver(d)` returns the error "cannot delete driver with active routes"
if and only if some stored route has `DriverID = d` and status active; in that case
the store is left as it was, and otherwise the call returns no error, the first
driver document with id `d` is taken out (with distinct ids, no driver with id `d`
is left) and every other driver, every route and every package is unchanged. -/
theorem deleteDriver_blocked_iff_active_route (s : Store) (d : ObjectID) :
    ((DriverService.DeleteDriver s d).2 =
        some (Err.errorf "cannot delete driver with active routes") ↔
      ∃ r ∈ s.routes, r.DriverID = d ∧ r.Status = RouteStatusActive) ∧
    ((∃ r ∈ s.routes, r.DriverID = d ∧ r.Status = RouteStatusActive) →
      (DriverService.DeleteDriver s d).1 = s) ∧
    ((¬ ∃ r ∈ s.routes, r.DriverID = d ∧ r.Status = RouteStatusActive) →
      (DriverService.DeleteDriver s d).2 = none ∧
      (DriverService.DeleteDriver s d).1.routes = s.routes ∧
      (DriverService.DeleteDriver s d).1.packages = s.packages ∧
      (DriverService.DeleteDriver s d).1.drivers.filter (fun x => x.ID != d) =
        s.drivers.filter (fun x => x.ID != d) ∧
      (∀ drv, DriverRepository.GetByID s.drivers d = .ok (some drv) →
        (DriverService.DeleteDriver s d).1.drivers.length + 1 = s.drivers.length) ∧
      ((s.drivers.map (fun x => x.ID)).Nodup →
        DriverRepository.GetByID (DriverService.DeleteDriver s d).1.drivers d =
          .error Err.ErrNoDocuments)) := by
  have hiff := DriverService.hasActiveRoute_iff d s.routes
  refine ⟨?_, ?_, ?_⟩
  · unfold DriverService.DeleteDriver RouteRepository.ListAll
    by_cases h : DriverService.hasActiveRoute d s.routes = true
    · rw [if_pos h]
      exact ⟨fun _ => hiff.mp h, fun _ => rfl⟩
    · rw [if_neg h]
      constructor
      · intro h2; cases h2
      · intro h2; exact absurd (hiff.mpr h2) h
  · intro h
    have h2 := hiff.mpr h
    simp [DriverService.DeleteDriver, RouteRepository.ListAll, h2]
  · intro h
    have h2 : ¬ DriverService.hasActiveRoute d s.routes = true := fun h3 => h (hiff.mp h3)
    have hres : DriverService.DeleteDriver s d =
        ({ s with drivers := DriverRepository.Delete s.drivers d }, none) := by
      simp [DriverService.DeleteDriver, RouteRepository.ListAll, h2]
    rw [hres]
    refine ⟨rfl, rfl, rfl, ?_, ?_, ?_⟩
    · exact filter_eraseP_disjoint _ _ _ (by intro x hx; simpa using hx)
    · intro drv hdrv
      unfold DriverRepository.GetByID at hdrv
      split at hdrv
      · cases hdrv
      · rename_i d0 hd0
        exact length_eraseP_of_find _ _ d0 hd0
    · intro hn
      have hgone := not_mem_eraseP_of_nodup (fun x : Driver => x.ID) d s.drivers hn
      have hnone := find?_eq_none_of_forall_ne (fun x : Driver => x.ID) d _ hgone
      simp only [DriverRepository.GetByID, DriverRepository.Delete, hnone]

/-- C13 on the sample store: Alice (driver 3) cannot be deleted while her route is
active, and is deleted once her only route is completed or cancelled. -/
theorem deleteDriver_blocked_iff_active_route_witness :
    (DriverService.DeleteDriver (sampleStore RouteStatusActive []) 3).2 =
      some (Err.errorf "cannot delete driver with active routes") ∧
    (DriverService.DeleteDriver (sampleStore RouteStatusActive []) 3).1 =
      sampleStore RouteStatusActive [] ∧
    ((DriverService.DeleteDriver (sampleStore RouteStatusCompleted []) 3).2 = none ∧
      DriverRepository.GetByID
        (DriverService.DeleteDriver (sampleStore RouteStatusCompleted []) 3).1.drivers 3 =
        .error Err.ErrNoDocuments) ∧
    ((DriverService.DeleteDriver (sampleStore RouteStatusCancelled []) 3).2 = none ∧
      DriverRepository.GetByID
        (DriverService.DeleteDriver (sampleStore RouteStatusCancelled []) 3).1.drivers 3 =
        .error Err.ErrNoDocuments) := by
  have hactive : ∃ r ∈ (sampleStore RouteStatusActive []).routes,
      r.DriverID = 3 ∧ r.Status = RouteStatusActive :=
    ⟨sampleRoute RouteStatusActive [], by decide, by rfl, by rfl⟩
  have hcompleted : ¬ ∃ r ∈ (sampleStore RouteStatusCompleted []).routes,
      r.DriverID = 3 ∧ r.Status = RouteStatusActive := by
    rintro ⟨r, hr, _, hst⟩
    have hr2 : r = sampleRoute RouteStatusCompleted [] := by
      simpa [sampleStore] using hr
    rw [hr2] at hst
    exact absurd hst (by decide)
  have hcancelled : ¬ ∃ r ∈ (sampleStore RouteStatusCancelled []).routes,
      r.DriverID = 3 ∧ r.Status = RouteStatusActive := by
    rintro ⟨r, hr, _, hst⟩
    have hr2 : r = sampleRoute RouteStatusCancelled [] := by
      simpa [sampleStore] using hr
    rw [hr2] at hst
    exact absurd hst (by decide)
  have h1 := deleteDriver_blocked_iff_active_route (sampleStore RouteStatusActive []) 3
  have h2 := (deleteDriver_blocked_iff_active_route
    (sampleStore RouteStatusCompleted []) 3).2.2 hcompleted
  have h3 := (deleteDriver_blocked_iff_active_route
    (sampleStore RouteStatusCancelled []) 3).2.2 hcancelled
  exact ⟨h1.1.mpr hactive, h1.2.1 hactive,
    ⟨h2.1, h2.2.2.2.2.2 (by decide)⟩, ⟨h3.1, h3.2.2.2.2.2 (by decide)⟩⟩

/-- C14: for a stored package, `MarkAsDelivered` returns and stores a package with
`Delivered = true` and a non-null delivery timestamp, the reading of the clock that
`Package.MarkAsDelivered` also sets as the updated timestamp (the gateway then stamps
`UpdatedAt` of the stored and returned package with its own, later reading); and
`DeletePackage` on the store so reached fails with "cannot delete a delivered
package" and leaves that store, the package included, as it is. -/
theorem markAsDelivered_then_delete_refused (clk : Clock) (s : Store) (id : ObjectID)
    (pkg : Package) (hpkg : PackageRepository.GetByID s.packages id = .ok (some pkg)) :
    ∃ stored,
      (PackageService.MarkAsDelivered clk s id).2 = .ok stored ∧
      PackageRepository.GetByID (PackageService.MarkAsDelivered clk s id).1.packages id =
        .ok (some stored) ∧
      stored.Delivered = true ∧
      stored.DeliveryTimestamp = some (clk 0) ∧
      stored.DeliveryTimestamp = some (pkg.MarkAsDelivered (clk 0)).UpdatedAt ∧
      stored.UpdatedAt = clk 1 ∧
      (PackageService.DeletePackage (PackageService.MarkAsDelivered clk s id).1 id).2 =
        some (Err.errorf "cannot delete a delivered package") ∧
      (PackageService.DeletePackage (PackageService.MarkAsDelivered clk s id).1 id).1 =
        (PackageService.MarkAsDelivered clk s id).1 := by
  have hid : pkg.ID = id := PackageRepository.package_id_of_getByID hpkg
  have hget := PackageRepository.getByID_update (clk 1) s.packages id pkg
    (pkg.MarkAsDelivered (clk 0)) hpkg hid
  rw [PackageService.markAsDelivered_ok clk s id pkg hpkg]
  refine ⟨_, rfl, hget, rfl, rfl, rfl, rfl, ?_, ?_⟩
  · simp only [PackageService.DeletePackage, hget]
    rfl
  · simp only [PackageService.DeletePackage, hget]
    rfl

/-- C14 at package 7 of the scenario store. -/
theorem markAsDelivered_then_delete_refused_witness :
    ∃ stored,
      (PackageService.MarkAsDelivered sampleClock scenarioStore 7).2 = .ok stored ∧
      PackageRepository.GetByID
        (PackageService.MarkAsDelivered sampleClock scenarioStore 7).1.packages 7 =
        .ok (some stored) ∧
      stored.Delivered = true ∧
      stored.DeliveryTimestamp = some 100 ∧
      (PackageService.DeletePackage
        (PackageService.MarkAsDelivered sampleClock scenarioStore 7).1 7).2 =
        some (Err.errorf "cannot delete a delivered package") := by
  obtain ⟨stored, h1, h2, h3, h4, _, _, h7, _⟩ :=
    markAsDelivered_then_delete_refused sampleClock scenarioStore 7
      (samplePackage 7 false).pkg (by rfl)
  exact ⟨stored, h1, h2, h3, h4, h7⟩

/-- C15: `DeletePackage` returns the gateway's not-found error `ErrNoDocuments` when no
package has the id, returns "cannot delete a delivered package" exactly when the
stored package with the id has `Delivered = true` (the store is then left as it was),
and otherwise returns no error, takes out the first package document with the id
(with distinct ids, no package with the id is left) and leaves every other package,
every route and every driver unchanged. -/
theorem deletePackage_cases (s : Store) (id : ObjectID) :
    ((∀ d ∈ s.packages, d.pkg.ID ≠ id) →
      PackageService.DeletePackage s id = (s, some Err.ErrNoDocuments)) ∧
    ((PackageService.DeletePackage s id).2 =
        some (Err.errorf "cannot delete a delivered package") ↔
      ∃ pkg, PackageRepository.GetByID s.packages id = .ok (some pkg) ∧
        pkg.Delivered = true) ∧
    ((∃ pkg, PackageRepository.GetByID s.packages id = .ok (some pkg) ∧
        pkg.Delivered = true) → (PackageService.DeletePackage s id).1 = s) ∧
    (∀ pkg, PackageRepository.GetByID s.packages id = .ok (some pkg) →
      pkg.Delivered = false →
      (PackageService.DeletePackage s id).2 = none ∧
      (PackageService.DeletePackage s id).1.routes = s.routes ∧
      (PackageService.DeletePackage s id).1.drivers = s.drivers ∧
      (PackageService.DeletePackage s id).1.packages.filter (fun d => d.pkg.ID != id) =
        s.packages.filter (fun d => d.pkg.ID != id) ∧
      (PackageService.DeletePackage s id).1.packages.length + 1 = s.packages.length ∧
      ((s.packages.map (fun d => d.pkg.ID)).Nodup →
        PackageRepository.GetByID (PackageService.DeletePackage s id).1.packages id =
          .error Err.ErrNoDocuments)) := by
  refine ⟨?_, ?_, ?_, ?_⟩
  · intro h
    simp [PackageService.DeletePackage, PackageRepository.getByID_none h]
  · constructor
    · intro h
      unfold PackageService.DeletePackage at h
      split at h
      · rename_i e he
        have h2 : e = Err.errorf "cannot delete a delivered package" := by
          simpa using h
        unfold PackageRepository.GetByID at he
        split at he
        · cases he
          cases h2
        · cases he
      · simp [nilDereference] at h
      · rename_i pkg hpkg
        split at h
        · rename_i hdel
          exact ⟨pkg, hpkg, hdel⟩
        · cases h
    · rintro ⟨pkg, hpkg, hdel⟩
      simp [PackageService.DeletePackage, hpkg, hdel]
  · rintro ⟨pkg, hpkg, hdel⟩
    simp [PackageService.DeletePackage, hpkg, hdel]
  · intro pkg hpkg hdel
    have hres : PackageService.DeletePackage s id =
        ({ s with packages := PackageRepository.Delete s.packages id }, none) := by
      simp [PackageService.DeletePackage, hpkg, hdel]
    obtain ⟨d, hd, _⟩ := PackageRepository.find_of_package_getByID hpkg
    rw [hres]
    refine ⟨rfl, rfl, rfl, ?_, ?_, ?_⟩
    · exact filter_eraseP_disjoint _ _ _ (by intro x hx; simpa using hx)
    · exact length_eraseP_of_find _ _ d hd
    · intro hn
      exact PackageRepository.getByID_none
        (not_mem_eraseP_of_nodup (fun x : PackageDoc => x.pkg.ID) id s.packages hn)

/-- C15 on the sample store (packages 7 and 8 undelivered, 9 delivered): package 4
is not found, package 9 is refused, package 7 is removed and 8 and 9 stay. -/
theorem deletePackage_cases_witness :
    PackageService.DeletePackage (sampleStore RouteStatusPending []) 4 =
      (sampleStore RouteStatusPending [], some Err.ErrNoDocuments) ∧
    (PackageService.DeletePackage (sampleStore RouteStatusPending []) 9).2 =
      some (Err.errorf "cannot delete a delivered package") ∧
    (PackageService.DeletePackage (sampleStore RouteStatusPending []) 9).1 =
      sampleStore RouteStatusPending [] ∧
    (PackageService.DeletePackage (sampleStore RouteStatusPending []) 7).2 = none ∧
    (PackageService.DeletePackage (sampleStore RouteStatusPending []) 7).1.packages.filter
        (fun d => d.pkg.ID != 7) = [samplePackage 8 false, samplePackage 9 true] ∧
    PackageRepository.GetByID
      (PackageService.DeletePackage (sampleStore RouteStatusPending []) 7).1.packages 7 =
      .error Err.ErrNoDocuments := by
  have h4 := (deletePackage_cases (sampleStore RouteStatusPending []) 4).1 (by decide)
  have h9 : ∃ pkg, PackageRepository.GetByID (sampleStore RouteStatusPending []).packages 9 =
      .ok (some pkg) ∧ pkg.Delivered = true := ⟨(samplePackage 9 true).pkg, by rfl, by rfl⟩
  have h9a := (deletePackage_cases (sampleStore RouteStatusPending []) 9).2.1.mpr h9
  have h9b := (deletePackage_cases (sampleStore RouteStatusPending []) 9).2.2.1 h9
  obtain ⟨h7a, _, _, h7b, _, h7c⟩ :=
    (deletePackage_cases (sampleStore RouteStatusPending []) 7).2.2.2
      (samplePackage 7 false).pkg (by rfl) (by rfl)
  exact ⟨h4, h9a, h9b, h7a, h7b, h7c (by decide)⟩

/-- C16: `CreateRoute` returns an error if and only if no driver with the id is stored
or the stored driver has `Active = false`; when it returns an error the store is left
as it was, and when it does not, exactly one route has been added. -/
theorem createRoute_fails_iff (clk : Clock) (newID : ObjectID) (s : Store)
    (driverID : ObjectID) (date : Time) :
    ((∃ e, (RouteService.CreateRoute clk newID s driverID date).2 = .error e) ↔
      ((∀ d ∈ s.drivers, d.ID ≠ driverID) ∨
        ∃ d, DriverRepository.GetByID s.drivers driverID = .ok (some d) ∧
          d.Active = false)) ∧
    ((∃ e, (RouteService.CreateRoute clk newID s driverID date).2 = .error e) →
      (RouteService.CreateRoute clk newID s driverID date).1 = s) ∧
    ((¬ ∃ e, (RouteService.CreateRoute clk newID s driverID date).2 = .error e) →
      (RouteService.CreateRoute clk newID s driverID date).1.routes.length =
        s.routes.length + 1) := by
  rcases DriverRepository.getByID_cases s.drivers driverID with ⟨hnone, hall⟩ | ⟨d, hd, _, _, _⟩
  · have hres : RouteService.CreateRoute clk newID s driverID date =
        (s, .error Err.ErrNoDocuments) := by
      simp [RouteService.CreateRoute, hnone]
    rw [hres]
    refine ⟨⟨fun _ => Or.inl hall, fun _ => ⟨_, rfl⟩⟩, fun _ => rfl, ?_⟩
    intro h
    exact absurd ⟨_, rfl⟩ h
  · cases hact : d.Active with
    | false =>
      have hres : RouteService.CreateRoute clk newID s driverID date =
          (s, .error (Err.errorf "driver is not active")) := by
        simp [RouteService.CreateRoute, hd, hact]
      rw [hres]
      refine ⟨⟨fun _ => Or.inr ⟨d, hd, hact⟩, fun _ => ⟨_, rfl⟩⟩, fun _ => rfl, ?_⟩
      intro h
      exact absurd ⟨_, rfl⟩ h
    | true =>
      rw [RouteService.createRoute_ok clk newID s driverID date d hd hact]
      refine ⟨⟨?_, ?_⟩, ?_, ?_⟩
      · rintro ⟨e, he⟩
        cases he
      · rintro (hall | ⟨d2, hd2, hact2⟩)
        · rcases DriverRepository.getByID_cases s.drivers driverID with
            ⟨hnone, _⟩ | ⟨d3, _, hmem, hid, _⟩
          · rw [hnone] at hd; cases hd
          · exact absurd hid (hall d3 hmem)
        · rw [hd] at hd2
          cases hd2
          rw [hact] at hact2
          cases hact2
      · rintro ⟨e, he⟩
        cases he
      · intro _
        simp

/-- C16 on the sample store: a route for the absent driver 4 is refused and nothing
is stored, a route for the active driver 3 is stored. -/
theorem createRoute_fails_iff_witness :
    (∃ e, (RouteService.CreateRoute sampleClock 42 (sampleStore RouteStatusPending []) 4
        20240102).2 = .error e) ∧
    (RouteService.CreateRoute sampleClock 42 (sampleStore RouteStatusPending []) 4
        20240102).1 = sampleStore RouteStatusPending [] ∧
    (RouteService.CreateRoute sampleClock 42 (sampleStore RouteStatusPending []) 3
        20240102).1.routes.length = 1 + 1 := by
  have h4 := createRoute_fails_iff sampleClock 42 (sampleStore RouteStatusPending []) 4
    20240102
  have h3 := createRoute_fails_iff sampleClock 42 (sampleStore RouteStatusPending []) 3
    20240102
  have hfail := h4.1.mpr (Or.inl (by decide))
  refine ⟨hfail, h4.2.1 hfail, h3.2.2 ?_⟩
  rintro ⟨e, he⟩
  exact absurd he (by intro h; cases h)

/-- C17: for a stored active driver `d` and any date, `CreateRoute` returns a route
and stores that same route after the routes stored before, which stay as they were;
the route has `DriverID = d`, the given date, status pending, no assignments,
`EstimatedDistanceKm = 0` and `EstimatedTimeMin = 0` (and the generated id). -/
theorem createRoute_stores_pending_route (clk : Clock) (newID : ObjectID) (s : Store)
    (driverID : ObjectID) (date : Time) (driver : Driver)
    (hdriver : DriverRepository.GetByID s.drivers driverID = .ok (some driver))
    (hactive : driver.Active = true) :
    ∃ route,
      (RouteService.CreateRoute clk newID s driverID date).2 = .ok route ∧
      (RouteService.CreateRoute clk newID s driverID date).1.routes = s.routes ++ [route] ∧
      (RouteService.CreateRoute clk newID s driverID date).1.drivers = s.drivers ∧
      (RouteService.CreateRoute clk newID s driverID date).1.packages = s.packages ∧
      route.ID = newID ∧
      route.DriverID = driverID ∧
      route.Date = date ∧
      route.Status = RouteStatusPending ∧
      route.Packages = [] ∧
      route.EstimatedDistanceKm = Float64.ofInt 0 ∧
      Float64.toRat route.EstimatedDistanceKm = 0 ∧
      route.EstimatedTimeMin = 0 := by
  rw [RouteService.createRoute_ok clk newID s driverID date driver hdriver hactive]
  refine ⟨_, rfl, rfl, rfl, rfl, rfl, rfl, rfl, rfl, rfl, rfl, ?_, rfl⟩
  have h0 : Float64.ofInt 0 = ⟨false, 0, -1022⟩ := by decide
  simp [NewRoute, h0, Float64.toRat]

/-- C17 for Alice (driver 3) on the sample store, which already holds route 1. -/
theorem createRoute_stores_pending_route_witness :
    ∃ route,
      (RouteService.CreateRoute sampleClock 42 (sampleStore RouteStatusActive []) 3
        20240102).2 = .ok route ∧
      (RouteService.CreateRoute sampleClock 42 (sampleStore RouteStatusActive []) 3
        20240102).1.routes = [sampleRoute RouteStatusActive [], route] ∧
      route.DriverID = 3 ∧ route.Date = 20240102 ∧ route.Status = RouteStatusPending ∧
      route.Packages = [] ∧ route.EstimatedTimeMin = 0 := by
  obtain ⟨route, h1, h2, _, _, _, h6, h7, h8, h9, _, _, h12⟩ :=
    createRoute_stores_pending_route sampleClock 42 (sampleStore RouteStatusActive []) 3
      20240102 { ID := 3, Name := "Alice", VehicleType := "van", Active := true,
                 CreatedAt := 5, UpdatedAt := 5 } (by rfl) (by rfl)
  exact ⟨route, h1, h2, h6, h7, h8, h9, h12⟩

/-- C18 (fails in its frame clause): (1) `UpdatePackage` on a stored package returns
and stores the package with the six descriptive fields set to the arguments, the
updated timestamp stamped and every other field of `models.Package` (`ID`,
`Delivered`, `DeliveryTimestamp`, `CreatedAt`) as before, but the document it stores
has no `status` field: whatever persisted status the package had is removed, because
`PackageRepository.Update` replaces the whole document by the struct, which declares
no status; (2) `MarkAsDelivered` writes through the same gateway and removes the
persisted status as well.  The other clauses hold: (3) along every sequence of
`PackageService` calls (`CreatePackage`, `UpdatePackage`, `MarkAsDelivered`,
`DeletePackage`, failed or not), a stored package whose `Delivered` flag is true stays
stored with `Delivered = true`, and a non-null delivery timestamp stays non-null;
(4) a second `MarkAsDelivered` returns no error and the package is stored with
`Delivered = true` and a non-null delivery timestamp. -/
theorem updatePackage_erases_persisted_status :
    (∀ (clk : Clock) (s : Store) (id : ObjectID) (t n a p : String) (w v : Float64)
        (pkg : Package),
      PackageRepository.GetByID s.packages id = .ok (some pkg) →
      ∃ stored,
        (PackageService.UpdatePackage clk s id t n a p w v).2 = .ok stored ∧
        (PackageService.UpdatePackage clk s id t n a p w v).1.packages.find?
            (fun d => d.pkg.ID == id) = some { pkg := stored, status := none } ∧
        Store.persistedStatus (PackageService.UpdatePackage clk s id t n a p w v).1 id =
          some none ∧
        stored = { pkg with
          TrackingNumber := t, CustomerName := n, CustomerAddress := a,
          CustomerPhone := p, WeightKg := w, VolumeM3 := v, UpdatedAt := clk 1 } ∧
        stored.ID = pkg.ID ∧ stored.Delivered = pkg.Delivered ∧
        stored.DeliveryTimestamp = pkg.DeliveryTimestamp ∧
        stored.CreatedAt = pkg.CreatedAt) ∧
    (∀ (clk : Clock) (s : Store) (id : ObjectID) (pkg : Package),
      PackageRepository.GetByID s.packages id = .ok (some pkg) →
        Store.persistedStatus (PackageService.MarkAsDelivered clk s id).1 id = some none) ∧
    (∀ (ops : List PackageOp) (s : Store) (id : ObjectID) (pkg : Package),
      PackageRepository.GetByID s.packages id = .ok (some pkg) → pkg.Delivered = true →
      ∃ pkg2, PackageRepository.GetByID (PackageOp.runAll s ops).packages id =
          .ok (some pkg2) ∧
        pkg2.Delivered = true ∧
        (pkg.DeliveryTimestamp ≠ none → pkg2.DeliveryTimestamp ≠ none)) ∧
    (∀ (clk1 clk2 : Clock) (s : Store) (id : ObjectID) (pkg : Package),
      PackageRepository.GetByID s.packages id = .ok (some pkg) →
      ∃ first second,
        (PackageService.MarkAsDelivered clk1 s id).2 = .ok first ∧
        (PackageService.MarkAsDelivered clk2
          (PackageService.MarkAsDelivered clk1 s id).1 id).2 = .ok second ∧
        PackageRepository.GetByID
          (PackageService.MarkAsDelivered clk2
            (PackageService.MarkAsDelivered clk1 s id).1 id).1.packages id =
          .ok (some second) ∧
        second.Delivered = true ∧ second.DeliveryTimestamp ≠ none) := by
  refine ⟨?_, ?_,
    fun ops s id pkg h1 h2 => PackageOp.runAll_keeps_delivered ops s id pkg h1 h2, ?_⟩
  · intro clk s id t n a p w v pkg hpkg
    have hid : pkg.ID = id := PackageRepository.package_id_of_getByID hpkg
    have hfind := PackageRepository.find_update (clk 1) s.packages id pkg
      { pkg with
        TrackingNumber := t, CustomerName := n, CustomerAddress := a,
        CustomerPhone := p, WeightKg := w, VolumeM3 := v, UpdatedAt := clk 0 } hpkg hid
    rw [PackageService.updatePackage_ok clk s id t n a p w v pkg hpkg]
    refine ⟨_, rfl, hfind, ?_, rfl, rfl, rfl, rfl, rfl⟩
    simp only [Store.persistedStatus, hfind, Option.map_some']
  · intro clk s id pkg hpkg
    have hid : pkg.ID = id := PackageRepository.package_id_of_getByID hpkg
    have hfind := PackageRepository.find_update (clk 1) s.packages id pkg
      (pkg.MarkAsDelivered (clk 0)) hpkg hid
    rw [PackageService.markAsDelivered_ok clk s id pkg hpkg]
    simp only [Store.persistedStatus, hfind, Option.map_some']
  · intro clk1 clk2 s id pkg hpkg
    have hid : pkg.ID = id := PackageRepository.package_id_of_getByID hpkg
    have hget1 := PackageRepository.getByID_update (clk1 1) s.packages id pkg
      (pkg.MarkAsDelivered (clk1 0)) hpkg hid
    have h1 := PackageService.markAsDelivered_ok clk1 s id pkg hpkg
    have h2 := PackageService.markAsDelivered_ok clk2
      (PackageService.MarkAsDelivered clk1 s id).1 id
      { pkg.MarkAsDelivered (clk1 0) with UpdatedAt := clk1 1 } (by rw [h1]; exact hget1)
    have hget2 := PackageRepository.getByID_update (clk2 1)
      (PackageService.MarkAsDelivered clk1 s id).1.packages id
      { pkg.MarkAsDelivered (clk1 0) with UpdatedAt := clk1 1 }
      (Package.MarkAsDelivered { pkg.MarkAsDelivered (clk1 0) with UpdatedAt := clk1 1 }
        (clk2 0))
      (by rw [h1]; exact hget1) hid
    refine ⟨_, _, by rw [h1], by rw [h2], ?_, rfl, ?_⟩
    · rw [h2]
      exact hget2
    · simp [Package.MarkAsDelivered]

/-- C18 on the sample data.  Package 7 is on route 1; making the route active sets its
persisted status to `assigned`; `UpdatePackage` with the six values the package
already has then leaves the stored document without a status, the package record
being otherwise as it was apart from the updated timestamp.  And the delivered
package 9 is still stored and delivered after an update, a delete attempt, a second
delivery and a creation. -/
theorem updatePackage_erases_persisted_status_witness :
    (RouteService.UpdateRouteStatus sampleClock
      (sampleStore RouteStatusPending [sampleAssignment 7 1]) 1 RouteStatusActive).2 = none ∧
    Store.persistedStatus
      (RouteService.UpdateRouteStatus sampleClock
        (sampleStore RouteStatusPending [sampleAssignment 7 1]) 1 RouteStatusActive).1 7 =
      some (some PackageStatusAssigned) ∧
    Store.persistedStatus
      (PackageService.UpdatePackage sampleClock
        (RouteService.UpdateRouteStatus sampleClock
          (sampleStore RouteStatusPending [sampleAssignment 7 1]) 1 RouteStatusActive).1
        7 "T1" "Bob" "1 Main St" "555" (Float64.ofInt 2) (Float64.ofInt 1)).1 7 =
      some none ∧
    (∃ pkg2, PackageRepository.GetByID
        (PackageOp.runAll (sampleStore RouteStatusPending [])
          [PackageOp.update sampleClock 9 "T9" "Carol" "2 Side St" "556"
              (Float64.ofInt 3) (Float64.ofInt 1),
           PackageOp.delete 9,
           PackageOp.markAsDelivered sampleClock 9,
           PackageOp.create sampleClock 9 "T10" "Dan" "3 Back St" "557"
              (Float64.ofInt 1) (Float64.ofInt 1)]).packages 9 = .ok (some pkg2) ∧
      pkg2.Delivered = true ∧ pkg2.DeliveryTimestamp ≠ none) := by
  obtain ⟨stored, _, _, hstatus, _⟩ := updatePackage_erases_persisted_status.1 sampleClock
    (RouteService.UpdateRouteStatus sampleClock
      (sampleStore RouteStatusPending [sampleAssignment 7 1]) 1 RouteStatusActive).1
    7 "T1" "Bob" "1 Main St" "555" (Float64.ofInt 2) (Float64.ofInt 1)
    (samplePackage 7 false).pkg (by rfl)
  obtain ⟨pkg2, h1, h2, h3⟩ := updatePackage_erases_persisted_status.2.2.1
    [PackageOp.update sampleClock 9 "T9" "Carol" "2 Side St" "556"
        (Float64.ofInt 3) (Float64.ofInt 1),
     PackageOp.delete 9,
     PackageOp.markAsDelivered sampleClock 9,
     PackageOp.create sampleClock 9 "T10" "Dan" "3 Back St" "557"
        (Float64.ofInt 1) (Float64.ofInt 1)]
    (sampleStore RouteStatusPending []) 9 (samplePackage 9 true).pkg (by rfl) (by rfl)
  exact ⟨by rfl, by rfl, hstatus, pkg2, h1, h2, h3 (by decide)⟩

/-- C19: for a stored driver id and arguments (name, vehicleType, active),
`UpdateDriver` returns and stores a driver whose `Name`, `VehicleType` and `Active`
are the arguments and whose `ID` and `CreatedAt` are those of the driver stored before,
and every other driver (and every route and package) is unchanged; for an id with no
stored driver it returns the gateway's error and the store is left as it was. -/
theorem updateDriver_frame (clk : Clock) (s : Store) (id : ObjectID) (name : String)
    (vehicleType : VehicleType) (active : Bool) :
    (∀ driver, DriverRepository.GetByID s.drivers id = .ok (some driver) →
      ∃ stored,
        (DriverService.UpdateDriver clk s id name vehicleType active).2 = .ok stored ∧
        DriverRepository.GetByID
          (DriverService.UpdateDriver clk s id name vehicleType active).1.drivers id =
          .ok (some stored) ∧
        stored.Name = name ∧ stored.VehicleType = vehicleType ∧ stored.Active = active ∧
        stored.ID = driver.ID ∧ stored.CreatedAt = driver.CreatedAt ∧
        (DriverService.UpdateDriver clk s id name vehicleType active).1.drivers.filter
            (fun x => x.ID != id) = s.drivers.filter (fun x => x.ID != id) ∧
        (DriverService.UpdateDriver clk s id name vehicleType active).1.drivers.length =
          s.drivers.length ∧
        (DriverService.UpdateDriver clk s id name vehicleType active).1.routes = s.routes ∧
        (DriverService.UpdateDriver clk s id name vehicleType active).1.packages =
          s.packages) ∧
    ((∀ d ∈ s.drivers, d.ID ≠ id) →
      DriverService.UpdateDriver clk s id name vehicleType active =
        (s, .error Err.ErrNoDocuments)) := by
  constructor
  · intro driver hdriver
    rcases DriverRepository.getByID_cases s.drivers id with ⟨hnone, _⟩ | ⟨d, hd, _, hid, hfind⟩
    · rw [hnone] at hdriver; cases hdriver
    · rw [hd] at hdriver
      cases hdriver
      have hres : DriverService.UpdateDriver clk s id name vehicleType active =
          ({ s with
              drivers := DriverRepository.Update (clk 0) s.drivers
                { driver with Name := name, VehicleType := vehicleType, Active := active } },
           .ok { driver with
                  Name := name, VehicleType := vehicleType, Active := active,
                  UpdatedAt := clk 0 }) := by
        simp [DriverService.UpdateDriver, hd]
      rw [hres]
      refine ⟨_, rfl, ?_, rfl, rfl, rfl, rfl, rfl, ?_, ?_, rfl, rfl⟩
      · have h := find?_updateOne_self (fun x : Driver => x.ID == driver.ID)
          (fun _ => ({ driver with
                        Name := name, VehicleType := vehicleType, Active := active,
                        UpdatedAt := clk 0 } : Driver))
          s.drivers (by intro x _; simp)
        rw [← hid] at hfind ⊢
        simp only [DriverRepository.GetByID, DriverRepository.Update, h, hfind,
          Option.map_some']
      · rw [← hid]
        simp only [DriverRepository.Update]
        exact filter_updateOne_disjoint _ _ _ _ (by intro x _; simp)
          (by intro x hx; simpa using hx)
      · simp only [DriverRepository.Update]
        exact length_updateOne _ _ _
  · intro h
    rcases DriverRepository.getByID_cases s.drivers id with ⟨hnone, _⟩ | ⟨d, _, hmem, hid, _⟩
    · simp [DriverService.UpdateDriver, hnone]
    · exact absurd hid (h d hmem)

/-- C19 on the sample store: Alice (driver 3) becomes an inactive truck driver, and
the absent driver 4 is refused. -/
theorem updateDriver_frame_witness :
    (∃ stored,
      (DriverService.UpdateDriver sampleClock (sampleStore RouteStatusPending []) 3 "Al"
        "truck" false).2 = .ok stored ∧
      stored.Name = "Al" ∧ stored.VehicleType = "truck" ∧ stored.Active = false ∧
      stored.ID = 3 ∧ stored.CreatedAt = 5) ∧
    DriverService.UpdateDriver sampleClock (sampleStore RouteStatusPending []) 4 "Al"
        "truck" false = (sampleStore RouteStatusPending [], .error Err.ErrNoDocuments) := by
  have h := updateDriver_frame sampleClock (sampleStore RouteStatusPending []) 3 "Al"
    "truck" false
  have h4 := (updateDriver_frame sampleClock (sampleStore RouteStatusPending []) 4 "Al"
    "truck" false).2 (by decide)
  obtain ⟨stored, h1, _, h3, h4a, h5, h6, h7, _⟩ :=
    h.1 { ID := 3, Name := "Alice", VehicleType := "van", Active := true,
          CreatedAt := 5, UpdatedAt := 5 } (by rfl)
  exact ⟨⟨stored, h1, h3, h4a, h5, h6, h7⟩, h4⟩

/-- C20: `GetDriverRoutes(d)` returns the listing of all stored routes filtered by
`DriverID = d`: exactly the stored routes of driver `d`, each as often as it is
listed, in the order of the listing, and no route of another driver. -/
theorem getDriverRoutes_eq_filter (s : Store) (d : ObjectID) :
    ∃ routes,
      DriverService.GetDriverRoutes s d = .ok routes ∧
      routes = (RouteRepository.ListAll s.routes).filter (fun r => r.DriverID == d) ∧
      routes.Sublist s.routes ∧
      (∀ r, r ∈ routes ↔ r ∈ s.routes ∧ r.DriverID = d) ∧
      (∀ r, routes.count r = if r.DriverID = d then s.routes.count r else 0) := by
  have hcollect : ∀ (l acc : List Route),
      DriverService.collectDriverRoutes d l acc =
        acc ++ l.filter (fun r => r.DriverID == d) := by
    intro l
    induction l with
    | nil => intro acc; simp [DriverService.collectDriverRoutes]
    | cons r rs ih =>
      intro acc
      by_cases h : r.DriverID = d
      · simp [DriverService.collectDriverRoutes, h, ih]
      · simp [DriverService.collectDriverRoutes, h, ih]
  have hres : DriverService.GetDriverRoutes s d =
      .ok ((RouteRepository.ListAll s.routes).filter (fun r => r.DriverID == d)) := by
    simp [DriverService.GetDriverRoutes, hcollect]
  refine ⟨_, hres, rfl, List.filter_sublist _, ?_, ?_⟩
  · intro r
    simp [RouteRepository.ListAll]
  · intro r
    simp only [RouteRepository.ListAll]
    by_cases h : r.DriverID = d
    · rw [if_pos h]
      exact List.count_filter (by simpa using h)
    · rw [if_neg h]
      apply List.count_eq_zero_of_not_mem
      simp [h]

/-- C21 (fails for `GetRoute`): on a malformed path parameter the three fetch-by-id
handlers answer 400.  On a well-formed id that matches no stored driver, package or
route, `GetDriver` and `GetPackage` answer 404, but `GetRoute` answers 500 with the
message of `mongo.ErrNoDocuments`: it answers the error of the service with 500
before it reaches its own `route == nil` test, which is the only place where it
writes 404. -/
theorem getRoute_absent_id_answers_500 (s : Store) (bad good : String) (id : ObjectID)
    (hbad : ObjectIDFromHex bad = none) (hgood : ObjectIDFromHex good = some id)
    (hdriver : ∀ d ∈ s.drivers, d.ID ≠ id)
    (hpackage : ∀ d ∈ s.packages, d.pkg.ID ≠ id)
    (hroute : ∀ r ∈ s.routes, r.ID ≠ id) :
    (DriverHandler.GetDriver s bad).status = 400 ∧
    (PackageHandler.GetPackage s bad).status = 400 ∧
    (RouteHandler.GetRoute s bad).status = 400 ∧
    (DriverHandler.GetDriver s good).status = 404 ∧
    (PackageHandler.GetPackage s good).status = 404 ∧
    (RouteHandler.GetRoute s good).status = 500 ∧
    (RouteHandler.GetRoute s good).body = .error "mongo: no documents in result" := by
  have hd := find?_eq_none_of_forall_ne (fun d : Driver => d.ID) id s.drivers hdriver
  have hp := PackageRepository.getByID_none hpackage
  have hr := find?_eq_none_of_forall_ne (fun r : Route => r.ID) id s.routes hroute
  refine ⟨?_, ?_, ?_, ?_, ?_, ?_, ?_⟩
  · simp only [DriverHandler.GetDriver, hbad, StatusBadRequest]
  · simp only [PackageHandler.GetPackage, hbad, StatusBadRequest]
  · simp only [RouteHandler.GetRoute, hbad, StatusBadRequest]
  · simp only [DriverHandler.GetDriver, hgood, DriverService.GetDriver,
      DriverRepository.GetByID, hd, StatusNotFound]
  · simp only [PackageHandler.GetPackage, hgood, PackageService.GetPackage, hp,
      StatusNotFound]
  · simp only [RouteHandler.GetRoute, hgood, RouteService.GetRoute,
      RouteRepository.GetByID, hr, StatusInternalServerError]
  · simp only [RouteHandler.GetRoute, hgood, RouteService.GetRoute,
      RouteRepository.GetByID, hr, Err.Error]

/-- C21 at the sample store, whose only route has id 1: the parameter `xyz` is
answered 400 by the three handlers, and the well-formed id 4, stored in no
collection, is answered 404, 404 and 500. -/
theorem getRoute_absent_id_answers_500_witness :
    ObjectIDFromHex "xyz" = none ∧
    ObjectIDFromHex "000000000000000000000004" = some 4 ∧
    (RouteHandler.GetRoute (sampleStore RouteStatusPending []) "xyz").status = 400 ∧
    (DriverHandler.GetDriver (sampleStore RouteStatusPending [])
      "000000000000000000000004").status = 404 ∧
    (PackageHandler.GetPackage (sampleStore RouteStatusPending [])
      "000000000000000000000004").status = 404 ∧
    (RouteHandler.GetRoute (sampleStore RouteStatusPending [])
      "000000000000000000000004").status = 500 := by
  obtain ⟨_, _, h3, h4, h5, h6, _⟩ :=
    getRoute_absent_id_answers_500 (sampleStore RouteStatusPending []) "xyz"
      "000000000000000000000004" 4 (by decide) (by decide) (by decide) (by decide)
      (by decide)
  exact ⟨by decide, by decide, h3, h4, h5, h6⟩

/-- C22: after a successful `UpdateRouteStatus(id, status)` on the stored route
`route`, the route collection is the old one with the first document of that id
replaced by `route` with `Status` set to `status`: driver id, date, assignments,
estimated distance and time (and both time stamps) of that document keep their
values, every other document keeps its place and content, and a fetch of `id`
returns the route with the new status. -/
theorem updateRouteStatus_sets_only_status (clk : Clock) (s : Store) (id : ObjectID)
    (status : RouteStatus) (route : Route)
    (hroute : RouteRepository.GetByID s.routes id = .ok (some route))
    (hok : (RouteService.UpdateRouteStatus clk s id status).2 = none) :
    (∃ before rest, s.routes = before ++ route :: rest ∧ (∀ r ∈ before, r.ID ≠ id) ∧
      (RouteService.UpdateRouteStatus clk s id status).1.routes =
        before ++ { route with Status := status } :: rest) ∧
    RouteRepository.GetByID (RouteService.UpdateRouteStatus clk s id status).1.routes id =
      .ok (some { ID := route.ID
                  DriverID := route.DriverID
                  Date := route.Date
                  Packages := route.Packages
                  EstimatedDistanceKm := route.EstimatedDistanceKm
                  EstimatedTimeMin := route.EstimatedTimeMin
                  Status := status
                  CreatedAt := route.CreatedAt
                  UpdatedAt := route.UpdatedAt }) ∧
    (RouteService.UpdateRouteStatus clk s id status).1.drivers = s.drivers := by
  have hfind := RouteRepository.find_of_getByID hroute
  rw [RouteService.updateRouteStatus_ok hroute hok]
  refine ⟨?_, ?_, rfl⟩
  · obtain ⟨l1, l2, hsplit, hl1, hupd⟩ :=
      updateOne_split (fun r : Route => r.ID == id) (fun r => { r with Status := status })
        s.routes route hfind
    refine ⟨l1, l2, hsplit, ?_, hupd⟩
    intro r hr
    simpa using hl1 r hr
  · apply RouteRepository.getByID_of_find
    show (RouteRepository.UpdateStatus s.routes id status).find? (fun r => r.ID == id) = _
    rw [RouteRepository.find_route_updateStatus, hfind]
    rfl

/-- C22 at a pending route holding package 7, made active: the collection holds the
same route with status `active`. -/
theorem updateRouteStatus_sets_only_status_witness :
    (RouteService.UpdateRouteStatus sampleClock
      (sampleStore RouteStatusPending [sampleAssignment 7 1]) 1 RouteStatusActive).2 = none ∧
    RouteRepository.GetByID
      (RouteService.UpdateRouteStatus sampleClock
        (sampleStore RouteStatusPending [sampleAssignment 7 1]) 1
        RouteStatusActive).1.routes 1 =
      .ok (some (sampleRoute RouteStatusActive [sampleAssignment 7 1])) :=
  ⟨by rfl,
   (updateRouteStatus_sets_only_status sampleClock
      (sampleStore RouteStatusPending [sampleAssignment 7 1]) 1 RouteStatusActive
      (sampleRoute RouteStatusPending [sampleAssignment 7 1]) (by rfl) (by rfl)).2.1⟩

/-- C23 (as stated, refuted): `UpdateRouteStatus` succeeds and stores the requested
status when an empty pending route is moved directly to `completed`, when it is moved
directly to `cancelled`, when an active route is moved back to `pending`, and when
the requested status is the string `paused`. -/
theorem updateRouteStatus_ignores_state_graph :
    ((RouteService.UpdateRouteStatus sampleClock (sampleStore RouteStatusPending []) 1
        RouteStatusCompleted).2 = none ∧
      RouteRepository.GetByID (RouteService.UpdateRouteStatus sampleClock
        (sampleStore RouteStatusPending []) 1 RouteStatusCompleted).1.routes 1 =
        .ok (some (sampleRoute RouteStatusCompleted []))) ∧
    ((RouteService.UpdateRouteStatus sampleClock
        (sampleStore RouteStatusPending [sampleAssignment 7 1]) 1
        RouteStatusCancelled).2 = none ∧
      RouteRepository.GetByID (RouteService.UpdateRouteStatus sampleClock
        (sampleStore RouteStatusPending [sampleAssignment 7 1]) 1
        RouteStatusCancelled).1.routes 1 =
        .ok (some (sampleRoute RouteStatusCancelled [sampleAssignment 7 1]))) ∧
    ((RouteService.UpdateRouteStatus sampleClock
        (sampleStore RouteStatusActive [sampleAssignment 7 1]) 1
        RouteStatusPending).2 = none ∧
      RouteRepository.GetByID (RouteService.UpdateRouteStatus sampleClock
        (sampleStore RouteStatusActive [sampleAssignment 7 1]) 1
        RouteStatusPending).1.routes 1 =
        .ok (some (sampleRoute RouteStatusPending [sampleAssignment 7 1]))) ∧
    ((RouteService.UpdateRouteStatus sampleClock
        (sampleStore RouteStatusActive [sampleAssignment 7 1]) 1 "paused").2 = none ∧
      RouteRepository.GetByID (RouteService.UpdateRouteStatus sampleClock
        (sampleStore RouteStatusActive [sampleAssignment 7 1]) 1 "paused").1.routes 1 =
        .ok (some (sampleRoute "paused" [sampleAssignment 7 1]))) ∧
    "paused" ≠ RouteStatusPending ∧ "paused" ≠ RouteStatusActive ∧
    "paused" ≠ RouteStatusCompleted ∧ "paused" ≠ RouteStatusCancelled :=
  ⟨⟨by rfl, by rfl⟩, ⟨by rfl, by rfl⟩, ⟨by rfl, by rfl⟩, ⟨by rfl, by rfl⟩,
   by decide, by decide, by decide, by decide⟩

/-- C23, amended: on a route whose stored status is pending or active,
`UpdateRouteStatus` with any requested status whatsoever succeeds unless the status
is `completed` and some assignment is undelivered, and a successful call stores
exactly the requested status; the previous status is not consulted and the requested
status is not compared with the four named ones. -/
theorem updateRouteStatus_accepts_any_status (clk : Clock) (s : Store) (id : ObjectID)
    (status : RouteStatus) (route : Route)
    (hroute : RouteRepository.GetByID s.routes id = .ok (some route))
    (hstate : route.Status = RouteStatusPending ∨ route.Status = RouteStatusActive) :
    ((RouteService.UpdateRouteStatus clk s id status).2 = none ↔
      ¬ (status = RouteStatusCompleted ∧ ∃ p ∈ route.Packages, p.Delivered = false)) ∧
    ((RouteService.UpdateRouteStatus clk s id status).2 = none →
      RouteRepository.GetByID (RouteService.UpdateRouteStatus clk s id status).1.routes id =
        .ok (some { route with Status := status })) := by
  have hnc : route.Status ≠ RouteStatusCompleted := by
    rcases hstate with h | h <;> rw [h] <;> decide
  have hres : (RouteService.UpdateRouteStatus clk s id status).2 =
      (route.UpdateStatus (clk 0) status).2 := by
    unfold RouteService.UpdateRouteStatus
    simp only [hroute, hnc, false_and, if_false]
    rcases Route.updateStatus_cases route (clk 0) status with h | h <;> rw [h]
  constructor
  · rw [hres]
    constructor
    · intro hnone hbad
      have := (Route.updateStatus_error_iff route (clk 0) status).mpr hbad
      rw [hnone] at this
      cases this
    · intro hgood
      rcases Route.updateStatus_cases route (clk 0) status with h | h
      · exfalso
        apply hgood
        apply (Route.updateStatus_error_iff route (clk 0) status).mp
        rw [h]
      · rw [h]
  · intro hok
    have hfind := RouteRepository.find_of_getByID hroute
    rw [RouteService.updateRouteStatus_ok hroute hok]
    apply RouteRepository.getByID_of_find
    show (RouteRepository.UpdateStatus s.routes id status).find? (fun r => r.ID == id) = _
    rw [RouteRepository.find_route_updateStatus, hfind]
    rfl

/-- C23, amended, at a pending route holding the undelivered package 7: the request
for `completed` is refused, the request for `cancelled` is accepted and stored. -/
theorem updateRouteStatus_accepts_any_status_witness :
    (RouteService.UpdateRouteStatus sampleClock
      (sampleStore RouteStatusPending [sampleAssignment 7 1]) 1
      RouteStatusCompleted).2 ≠ none ∧
    RouteRepository.GetByID (RouteService.UpdateRouteStatus sampleClock
      (sampleStore RouteStatusPending [sampleAssignment 7 1]) 1
      RouteStatusCancelled).1.routes 1 =
      .ok (some (sampleRoute RouteStatusCancelled [sampleAssignment 7 1])) := by
  constructor
  · intro h
    exact (updateRouteStatus_accepts_any_status sampleClock
      (sampleStore RouteStatusPending [sampleAssignment 7 1]) 1 RouteStatusCompleted
      (sampleRoute RouteStatusPending [sampleAssignment 7 1]) (by rfl)
      (Or.inl rfl)).1.mp h ⟨rfl, sampleAssignment 7 1, by simp [sampleRoute], rfl⟩
  · exact (updateRouteStatus_accepts_any_status sampleClock
      (sampleStore RouteStatusPending [sampleAssignment 7 1]) 1 RouteStatusCancelled
      (sampleRoute RouteStatusPending [sampleAssignment 7 1]) (by rfl)
      (Or.inl rfl)).2 (by rfl)

/-- C24: in the route obtained from `NewRoute` by any finite sequence of `AddPackage`,
`UpdatePackageStatus` and `UpdateStatus` calls (whatever they return), the order
values of the assignments are 1, 2, ..., n in list order, where n is the number of
`AddPackage` calls of the sequence, so the assignment at index k (from 0) has
`OrderInRoute = k + 1`; the package ids are those of the `AddPackage` calls in call
order and the list has length n.  On any route, `UpdatePackageStatus` keeps the
package id and the order value at every position (hence the length), and
`UpdateStatus` keeps the assignment list. -/
theorem route_order_invariant (now : Time) (driverID : ObjectID) (date : Time)
    (ops : List RouteOp) :
    (RouteOp.runAll (NewRoute now driverID date) ops).Packages.map
        (fun p => p.OrderInRoute) =
      (List.range' 1 (ops.filterMap RouteOp.added).length).map
        (fun k : Nat => (k : Int)) ∧
    (∀ (k : Nat) (p : PackageRoute),
      (RouteOp.runAll (NewRoute now driverID date) ops).Packages[k]? = some p →
        p.OrderInRoute = (k : Int) + 1) ∧
    (RouteOp.runAll (NewRoute now driverID date) ops).Packages.map (fun p => p.PackageID) =
      ops.filterMap RouteOp.added ∧
    (RouteOp.runAll (NewRoute now driverID date) ops).Packages.length =
      (ops.filterMap RouteOp.added).length ∧
    (∀ (r : Route) (clk : Clock) (packageID : ObjectID) (delivered : Bool),
      (r.UpdatePackageStatus clk packageID delivered).1.Packages.map
          (fun p => (p.PackageID, p.OrderInRoute)) =
        r.Packages.map (fun p => (p.PackageID, p.OrderInRoute)) ∧
      (r.UpdatePackageStatus clk packageID delivered).1.Packages.length =
        r.Packages.length) ∧
    (∀ (r : Route) (t : Time) (status : RouteStatus),
      (r.UpdateStatus t status).1.Packages = r.Packages) := by
  obtain ⟨hids, hords⟩ := RouteOp.runAll_keys ops (NewRoute now driverID date)
  have hnew : (NewRoute now driverID date).Packages = [] := rfl
  rw [hnew] at hids hords
  simp only [List.map_nil, List.nil_append, List.length_nil, Nat.zero_add] at hids hords
  have hlen : (RouteOp.runAll (NewRoute now driverID date) ops).Packages.length =
      (ops.filterMap RouteOp.added).length := by
    have := congrArg List.length hids
    simpa using this
  refine ⟨hords, ?_, hids, hlen, ?_, ?_⟩
  · intro k p hk
    have h := congrArg (fun l => l[k]?) hords
    simp only [List.getElem?_map, hk, Option.map_some'] at h
    have hklt : k < (ops.filterMap RouteOp.added).length := by
      rw [← hlen]
      exact (List.getElem?_eq_some_iff.mp hk).1
    rw [List.getElem?_range' _ _ hklt] at h
    simp only [Option.map_some', Option.some.injEq] at h
    rw [h]
    push_cast
    ring
  · intro r clk packageID delivered
    have hkeys := Route.updatePackageStatus_keys r clk packageID delivered
    refine ⟨hkeys, ?_⟩
    have := congrArg List.length hkeys
    simpa using this
  · intro r t status
    exact Route.updateStatus_packages r t status

/-- C24 at the sequence: add 7, report 7 delivered, add 8, make active, report the
unknown package 9 delivered.  The route holds 7 with order 1 and 8 with order 2. -/
theorem route_order_invariant_witness :
    (RouteOp.runAll (NewRoute 100 3 20240101)
      [RouteOp.addPackage sampleClock 7,
       RouteOp.updatePackageStatus sampleClock 7 true,
       RouteOp.addPackage sampleClock 8,
       RouteOp.updateStatus sampleClock RouteStatusActive,
       RouteOp.updatePackageStatus sampleClock 9 true]).Packages[1]? =
      some (sampleAssignment 8 2) ∧
    (sampleAssignment 8 2).OrderInRoute = ((1 : Nat) : Int) + 1 :=
  ⟨by rfl,
   (route_order_invariant 100 3 20240101
      [RouteOp.addPackage sampleClock 7,
       RouteOp.updatePackageStatus sampleClock 7 true,
       RouteOp.addPackage sampleClock 8,
       RouteOp.updateStatus sampleClock RouteStatusActive,
       RouteOp.updatePackageStatus sampleClock 9 true]).2.1 1 (sampleAssignment 8 2)
      (by rfl)⟩

/-- C25: the model method `Route.UpdatePackageStatus` returns true exactly when some
assignment of the route has the package id.  When the first such assignment is `a`,
standing after the assignments `before` and ahead of `rest`, the call returns true
and the list becomes `before`, then `a` with `Delivered` set to the flag and a
delivery timestamp that is the clock reading when the flag is true and absent when it
is false, then `rest`; the status of the route is kept.  When the call returns false
the route is the one before the call. -/
theorem route_updatePackageStatus_first_match (r : Route) (clk : Clock)
    (packageID : ObjectID) (delivered : Bool) :
    ((r.UpdatePackageStatus clk packageID delivered).2 = true ↔
      ∃ a ∈ r.Packages, a.PackageID = packageID) ∧
    (∀ (before : List PackageRoute) (a : PackageRoute) (rest : List PackageRoute),
      r.Packages = before ++ a :: rest → a.PackageID = packageID →
      (∀ x ∈ before, x.PackageID ≠ packageID) →
        (r.UpdatePackageStatus clk packageID delivered).2 = true ∧
        (r.UpdatePackageStatus clk packageID delivered).1.Packages =
          before ++
            { PackageID := a.PackageID
              OrderInRoute := a.OrderInRoute
              Delivered := delivered
              DeliveryTimestamp := if delivered then some (clk 0) else none } :: rest ∧
        ((if delivered then some (clk 0) else none : Option Time).isSome = delivered) ∧
        (r.UpdatePackageStatus clk packageID delivered).1.Status = r.Status) ∧
    ((r.UpdatePackageStatus clk packageID delivered).2 = false →
      (r.UpdatePackageStatus clk packageID delivered).1 = r) := by
  refine ⟨?_, ?_, ?_⟩
  · rw [← updateFirstAssignment_found (clk 0) packageID delivered r.Packages]
    simp only [Route.UpdatePackageStatus]
    by_cases hfound : (updateFirstAssignment (clk 0) packageID delivered r.Packages).2 = true
    · simp [hfound]
    · simp [hfound]
  · intro before a rest hsplit ha hbefore
    have hres := updateFirstAssignment_split (clk 0) packageID delivered a rest ha before
      hbefore
    rw [← hsplit] at hres
    simp only [Route.UpdatePackageStatus, hres, if_true]
    refine ⟨trivial, trivial, ?_, trivial⟩
    cases delivered <;> rfl
  · intro hfalse
    simp only [Route.UpdatePackageStatus] at hfalse ⊢
    by_cases hfound : (updateFirstAssignment (clk 0) packageID delivered r.Packages).2 = true
    · rw [if_pos hfound] at hfalse
      cases hfalse
    · rw [if_neg hfound]

/-- C25 at a route holding packages 7, 8 and 7 again: reporting 7 delivered changes
the assignment at the head only, and reporting the unknown package 9 returns false
and leaves the route as it was. -/
theorem route_updatePackageStatus_first_match_witness :
    ((sampleRoute RouteStatusActive
        [sampleAssignment 7 1, sampleAssignment 8 2, sampleAssignment 7 3]).UpdatePackageStatus
        sampleClock 7 true).1.Packages =
      [{ PackageID := 7, OrderInRoute := 1, Delivered := true,
         DeliveryTimestamp := some 100 },
       sampleAssignment 8 2, sampleAssignment 7 3] ∧
    ((sampleRoute RouteStatusActive
        [sampleAssignment 7 1, sampleAssignment 8 2, sampleAssignment 7 3]).UpdatePackageStatus
        sampleClock 9 true).1 =
      sampleRoute RouteStatusActive
        [sampleAssignment 7 1, sampleAssignment 8 2, sampleAssignment 7 3] :=
  ⟨((route_updatePackageStatus_first_match
      (sampleRoute RouteStatusActive
        [sampleAssignment 7 1, sampleAssignment 8 2, sampleAssignment 7 3])
      sampleClock 7 true).2.1 [] (sampleAssignment 7 1)
      [sampleAssignment 8 2, sampleAssignment 7 3] rfl rfl
      (fun x hx => by cases hx)).2.1,
   (route_updatePackageStatus_first_match
      (sampleRoute RouteStatusActive
        [sampleAssignment 7 1, sampleAssignment 8 2, sampleAssignment 7 3])
      sampleClock 9 true).2.2 (by rfl)⟩

/-- C26: let `after` be the store left by `RouteService.UpdateRouteStatus` or by
`RouteService.UpdatePackageDeliveryStatus`, successful or not.  The `models.Package`
part of every package document (delivered flag and delivery timestamp included) is
the one before the call, so every fetch of a package returns what it returned before.
Hence a package that was stored and undelivered before the call can still be deleted
by `DeletePackage`, and `AddPackagesToRoute` still accepts it on any pending route. -/
theorem route_status_calls_keep_delivered (clk : Clock) (s : Store)
    (routeID packageID : ObjectID) (status : RouteStatus) (delivered : Bool) (after : Store)
    (hafter : after = (RouteService.UpdateRouteStatus clk s routeID status).1 ∨
      after = (RouteService.UpdatePackageDeliveryStatus clk s routeID packageID
        delivered).1) :
    after.packages.map (fun d => d.pkg) = s.packages.map (fun d => d.pkg) ∧
    (∀ id, PackageRepository.GetByID after.packages id =
      PackageRepository.GetByID s.packages id) ∧
    (∀ id pkg, PackageRepository.GetByID s.packages id = .ok (some pkg) →
      pkg.Delivered = false →
        (PackageService.DeletePackage after id).2 = none ∧
        ∀ (clk2 : Clock) (target : ObjectID) (route2 : Route),
          RouteRepository.GetByID after.routes target = .ok (some route2) →
          route2.Status = RouteStatusPending →
            (RouteService.AddPackagesToRoute clk2 after target [id]).2 = none) := by
  have hmap : after.packages.map (fun d => d.pkg) = s.packages.map (fun d => d.pkg) := by
    rcases hafter with h | h
    · rw [h]; exact RouteService.updateRouteStatus_pkg clk s routeID status
    · rw [h]
      exact RouteService.updatePackageDeliveryStatus_pkg clk s routeID packageID delivered
  have hget := PackageRepository.getByID_congr hmap
  refine ⟨hmap, hget, ?_⟩
  intro id pkg hpkg hdel
  have hpkg2 : PackageRepository.GetByID after.packages id = .ok (some pkg) := by
    rw [hget, hpkg]
  constructor
  · simp only [PackageService.DeletePackage, hpkg2, hdel, Bool.false_eq_true, if_false]
  · intro clk2 target route2 hroute2 hpending
    obtain ⟨pkgs, hpkgs, _⟩ := RouteService.getPackages_ok after.packages [id]
      (by
        intro i hi
        rw [List.mem_singleton] at hi
        rw [hi]
        exact ⟨pkg, hpkg2, hdel⟩)
    exact (RouteService.addPackagesToRoute_ok clk2 after target [id] route2 pkgs hroute2
      hpending hpkgs).1

/-- C26 at the store where the assignment of package 7 on the active route 1 is marked
delivered while package 7 itself is not: after route 1 has been completed, package 7
is still undelivered, it can be deleted, and the pending route 2 accepts it. -/
theorem route_status_calls_keep_delivered_witness :
    (RouteService.UpdateRouteStatus sampleClock handoverStore 1 RouteStatusCompleted).2 =
      none ∧
    PackageRepository.GetByID
      (RouteService.UpdateRouteStatus sampleClock handoverStore 1
        RouteStatusCompleted).1.packages 7 = .ok (some (samplePackage 7 false).pkg) ∧
    (PackageService.DeletePackage
      (RouteService.UpdateRouteStatus sampleClock handoverStore 1
        RouteStatusCompleted).1 7).2 = none ∧
    (RouteService.AddPackagesToRoute sampleClock
      (RouteService.UpdateRouteStatus sampleClock handoverStore 1
        RouteStatusCompleted).1 2 [7]).2 = none := by
  obtain ⟨_, hget, hrest⟩ :=
    route_status_calls_keep_delivered sampleClock handoverStore 1 7 RouteStatusCompleted true
      (RouteService.UpdateRouteStatus sampleClock handoverStore 1 RouteStatusCompleted).1
      (Or.inl rfl)
  obtain ⟨hdelete, hadd⟩ := hrest 7 (samplePackage 7 false).pkg (by rfl) (by rfl)
  refine ⟨by rfl, ?_, hdelete, ?_⟩
  · rw [hget 7]; rfl
  · exact hadd sampleClock 2 { sampleRoute RouteStatusPending [] with ID := 2 } (by rfl)
      (by rfl)

/-- C27: `UpdateRouteStatus` returns an error when no route has the id, when the
stored route is completed and another status is requested, and when completion is
requested while an assignment is undelivered; and whenever it returns an error, for
these or any other cause, the store after the call is the store before it: no route
status and no persisted package status has been written. -/
theorem updateRouteStatus_rejected_writes_nothing (clk : Clock) (s : Store) (id : ObjectID)
    (status : RouteStatus) :
    ((∀ r ∈ s.routes, r.ID ≠ id) →
      (RouteService.UpdateRouteStatus clk s id status).2 = some Err.ErrNoDocuments) ∧
    (∀ route, RouteRepository.GetByID s.routes id = .ok (some route) →
      route.Status = RouteStatusCompleted → status ≠ RouteStatusCompleted →
        (RouteService.UpdateRouteStatus clk s id status).2 =
          some (Err.errorf "cannot change status of a completed route")) ∧
    (∀ route, RouteRepository.GetByID s.routes id = .ok (some route) →
      status = RouteStatusCompleted → (∃ p ∈ route.Packages, p.Delivered = false) →
        (RouteService.UpdateRouteStatus clk s id status).2 =
          some Err.ErrRouteHasPendingPackages) ∧
    (∀ e, (RouteService.UpdateRouteStatus clk s id status).2 = some e →
      (RouteService.UpdateRouteStatus clk s id status).1 = s ∧
      (RouteService.UpdateRouteStatus clk s id status).1.routes = s.routes ∧
      ∀ packageID,
        Store.persistedStatus (RouteService.UpdateRouteStatus clk s id status).1 packageID =
          Store.persistedStatus s packageID) := by
  refine ⟨?_, ?_, ?_, ?_⟩
  · intro habsent
    have hnone := find?_eq_none_of_forall_ne (fun r : Route => r.ID) id s.routes habsent
    simp only [RouteService.UpdateRouteStatus, RouteRepository.GetByID, hnone]
  · intro route hroute hcompleted hother
    simp only [RouteService.UpdateRouteStatus, hroute, hcompleted, ne_eq, hother,
      not_false_eq_true, and_self, if_true]
  · intro route hroute hstatus hpending
    have herr := (Route.updateStatus_error_iff route (clk 0) status).mpr ⟨hstatus, hpending⟩
    have hsame : (route.UpdateStatus (clk 0) status) =
        (route, some Err.ErrRouteHasPendingPackages) := by
      rcases Route.updateStatus_cases route (clk 0) status with h | h
      · exact h
      · rw [h] at herr; cases herr
    simp only [RouteService.UpdateRouteStatus, hroute, hstatus, ne_eq, not_true_eq_false,
      and_false, if_false]
    rw [hstatus] at hsame
    rw [hsame]
  · intro e herr
    have hstore := RouteService.updateRouteStatus_error herr
    refine ⟨hstore, ?_, ?_⟩
    · rw [hstore]
    · intro packageID
      rw [hstore]

/-- C27 at an active route holding the undelivered package 7: the request for
`completed` is refused and the store is the one before the call. -/
theorem updateRouteStatus_rejected_writes_nothing_witness :
    (RouteService.UpdateRouteStatus sampleClock
      (sampleStore RouteStatusActive [sampleAssignment 7 1]) 1 RouteStatusCompleted).2 =
      some Err.ErrRouteHasPendingPackages ∧
    (RouteService.UpdateRouteStatus sampleClock
      (sampleStore RouteStatusActive [sampleAssignment 7 1]) 1 RouteStatusCompleted).1 =
      sampleStore RouteStatusActive [sampleAssignment 7 1] := by
  have h := updateRouteStatus_rejected_writes_nothing sampleClock
    (sampleStore RouteStatusActive [sampleAssignment 7 1]) 1 RouteStatusCompleted
  have herr := h.2.2.1 (sampleRoute RouteStatusActive [sampleAssignment 7 1]) (by rfl) rfl
    ⟨sampleAssignment 7 1, by simp [sampleRoute], rfl⟩
  exact ⟨herr, (h.2.2.2 _ herr).1⟩

/-- C28 (fails): each of the two conversions `convertRouteToProtoResponse` and
`convertRouteToProto` dereferences the delivery timestamp of every assignment, so on a
non-nil route it panics exactly when some assignment has no delivery timestamp; in
particular both panic on every route to which `AddPackage` has just added an
assignment. -/
theorem convertRoute_panics_without_timestamp (route : Route) (now : Time)
    (packageID : ObjectID) :
    (convertRouteToProtoResponse route = none ↔
      ∃ p ∈ route.Packages, p.DeliveryTimestamp = none) ∧
    (convertRouteToProto route = none ↔
      ∃ p ∈ route.Packages, p.DeliveryTimestamp = none) ∧
    convertRouteToProtoResponse (route.AddPackage now packageID) = none ∧
    convertRouteToProto (route.AddPackage now packageID) = none ∧
    convertRouteToProtoResponse ((NewRoute 100 3 20240101).AddPackage 101 7) = none ∧
    convertRouteToProto ((NewRoute 100 3 20240101).AddPackage 101 7) = none := by
  have h1 : ∀ r : Route, convertRouteToProtoResponse r = none ↔
      ∃ p ∈ r.Packages, p.DeliveryTimestamp = none := by
    intro r
    rw [← convertPackages_eq_none_iff]
    unfold convertRouteToProtoResponse
    cases convertPackages r.Packages <;> simp
  have h2 : ∀ r : Route, convertRouteToProto r = none ↔
      ∃ p ∈ r.Packages, p.DeliveryTimestamp = none := by
    intro r
    rw [← convertPackages_eq_none_iff]
    unfold convertRouteToProto
    cases convertPackages r.Packages <;> simp
  have hfresh : ∀ (r : Route) (t : Time) (i : ObjectID),
      ∃ p ∈ (r.AddPackage t i).Packages, p.DeliveryTimestamp = none := by
    intro r t i
    refine ⟨{ PackageID := i, OrderInRoute := (r.Packages.length : Int) + 1,
              Delivered := false, DeliveryTimestamp := none }, ?_, rfl⟩
    simp [Route.AddPackage]
  exact ⟨h1 route, h2 route, (h1 _).mpr (hfresh _ _ _), (h2 _).mpr (hfresh _ _ _),
    (h1 _).mpr (hfresh _ _ _), (h2 _).mpr (hfresh _ _ _)⟩

/-- C29: when no stored driver has the id and no active route refers to it,
`DriverService.DeleteDriver` returns no error and the store after the call is the
store before it (drivers, routes and packages alike): it issues the delete without
fetching the driver.  `PackageService.DeletePackage`, which fetches first, answers an
absent package id with the error of the fetch. -/
theorem deleteDriver_absent_is_silent (s : Store) (id : ObjectID)
    (habsent : ∀ d ∈ s.drivers, d.ID ≠ id)
    (hfree : ∀ r ∈ s.routes, ¬ (r.DriverID = id ∧ r.Status = RouteStatusActive)) :
    (DriverService.DeleteDriver s id).2 = none ∧
    (DriverService.DeleteDriver s id).1 = s ∧
    (∀ packageID, (∀ d ∈ s.packages, d.pkg.ID ≠ packageID) →
      PackageService.DeletePackage s packageID = (s, some Err.ErrNoDocuments)) := by
  have hactive : DriverService.hasActiveRoute id (RouteRepository.ListAll s.routes) = false := by
    cases h : DriverService.hasActiveRoute id (RouteRepository.ListAll s.routes) with
    | false => rfl
    | true =>
      obtain ⟨r, hr, hrd⟩ := (DriverService.hasActiveRoute_iff id _).mp h
      exact absurd hrd (hfree r hr)
  have hdel : DriverRepository.Delete s.drivers id = s.drivers := by
    unfold DriverRepository.Delete
    apply List.eraseP_of_forall_not
    intro d hd
    simpa using habsent d hd
  refine ⟨?_, ?_, ?_⟩
  · simp only [DriverService.DeleteDriver, hactive, Bool.false_eq_true, if_false]
  · simp only [DriverService.DeleteDriver, hactive, Bool.false_eq_true, if_false, hdel]
  · intro packageID hpackage
    simp only [PackageService.DeletePackage, PackageRepository.getByID_none hpackage]

/-- C29 at the sample store, whose only driver has id 3: deleting driver 4 returns no
error and changes nothing. -/
theorem deleteDriver_absent_is_silent_witness :
    (DriverService.DeleteDriver (sampleStore RouteStatusActive []) 4).2 = none ∧
    (DriverService.DeleteDriver (sampleStore RouteStatusActive []) 4).1 =
      sampleStore RouteStatusActive [] :=
  ⟨(deleteDriver_absent_is_silent (sampleStore RouteStatusActive []) 4 (by decide)
      (by decide)).1,
   (deleteDriver_absent_is_silent (sampleStore RouteStatusActive []) 4 (by decide)
      (by decide)).2.1⟩

/-- C30: on a stored route in status active and a package id held by none of its
assignments, `UpdatePackageDeliveryStatus` returns no error, leaves the route
collection (and the drivers) as they were, and sets the persisted status of the
stored package with that id to `delivered` when the flag is true and to `assigned`
when it is false; the route is unchanged whichever key the filter of the gateway
names, because no assignment matches the id under the key `package_id` either. -/
theorem updatePackageDeliveryStatus_ignores_membership (clk : Clock) (s : Store)
    (routeID packageID : ObjectID) (delivered : Bool) (route : Route)
    (hroute : RouteRepository.GetByID s.routes routeID = .ok (some route))
    (hactive : route.Status = RouteStatusActive)
    (hforeign : ∀ a ∈ route.Packages, a.PackageID ≠ packageID) :
    (RouteService.UpdatePackageDeliveryStatus clk s routeID packageID delivered).2 = none ∧
    (RouteService.UpdatePackageDeliveryStatus clk s routeID packageID delivered).1.routes =
      s.routes ∧
    (RouteService.UpdatePackageDeliveryStatus clk s routeID packageID delivered).1.drivers =
      s.drivers ∧
    route.Packages.any (PackageRoute.matchesField "package_id" (Bson.objectID packageID)) =
      false ∧
    (∀ pkg, PackageRepository.GetByID s.packages packageID = .ok (some pkg) →
      Store.persistedStatus
        (RouteService.UpdatePackageDeliveryStatus clk s routeID packageID delivered).1
        packageID =
          some (some (if delivered then PackageStatusDelivered else PackageStatusAssigned))) ∧
    (∀ other, other ≠ packageID →
      Store.persistedStatus
        (RouteService.UpdatePackageDeliveryStatus clk s routeID packageID delivered).1
        other = Store.persistedStatus s other) := by
  have hframe := RouteService.updatePackageDeliveryStatus_routes clk s routeID packageID
    delivered
  have hres : RouteService.UpdatePackageDeliveryStatus clk s routeID packageID delivered =
      ({ s with
          routes := RouteRepository.UpdatePackageStatus (clk 0) s.routes routeID packageID
            delivered
          packages := PackageRepository.UpdateStatus s.packages packageID
            (if delivered then PackageStatusDelivered else PackageStatusAssigned) },
       none) := by
    simp only [RouteService.UpdatePackageDeliveryStatus, hroute, hactive, ne_eq,
      not_true_eq_false, if_false]
  refine ⟨?_, hframe.1, hframe.2, ?_, ?_, ?_⟩
  · rw [hres]
  · rw [List.any_eq_false]
    intro a ha
    have hne := hforeign a ha
    simp [PackageRoute.matchesField, PackageRoute.bson, List.lookup, hne]
  · intro pkg hpkg
    obtain ⟨d, hd, _⟩ := PackageRepository.find_of_package_getByID hpkg
    rw [hres]
    simp only [Store.persistedStatus, PackageRepository.find_package_updateStatus, hd,
      Option.map_some', if_true]
  · intro other hother
    rw [hres]
    simp only [Store.persistedStatus, PackageRepository.find_package_updateStatus]
    cases s.packages.find? (fun d => d.pkg.ID == other) with
    | none => rfl
    | some d => simp [Ne.symm hother]

/-- C30 at an active route holding only package 7, reporting package 8 delivered: no
error, the route is as before and the stored package 8 has status `delivered`. -/
theorem updatePackageDeliveryStatus_ignores_membership_witness :
    (RouteService.UpdatePackageDeliveryStatus sampleClock
      (sampleStore RouteStatusActive [sampleAssignment 7 1]) 1 8 true).2 = none ∧
    (RouteService.UpdatePackageDeliveryStatus sampleClock
      (sampleStore RouteStatusActive [sampleAssignment 7 1]) 1 8 true).1.routes =
      [sampleRoute RouteStatusActive [sampleAssignment 7 1]] ∧
    Store.persistedStatus
      (RouteService.UpdatePackageDeliveryStatus sampleClock
        (sampleStore RouteStatusActive [sampleAssignment 7 1]) 1 8 true).1 8 =
      some (some "delivered") := by
  obtain ⟨h1, h2, _, _, h5, _⟩ :=
    updatePackageDeliveryStatus_ignores_membership sampleClock
      (sampleStore RouteStatusActive [sampleAssignment 7 1]) 1 8 true
      (sampleRoute RouteStatusActive [sampleAssignment 7 1]) (by rfl) rfl (by decide)
  exact ⟨h1, h2, h5 (samplePackage 8 false).pkg (by rfl)⟩

end DeliveryPlanner
